import Mathlib

/-!
# openMSX: scheduling, V9990 video timing, ROM mapping, MSX-AUDIO ports

A shallow embedding of the parts of openMSX that the checked properties are
about, followed by the theorems.

Conventions of the embedding

* `byte` values are natural numbers; every write that the C++ code performs
  through a `byte` variable is masked the way the code masks it.
* C++ `int` values are integers (`Int`) with the truncating division and
  remainder of C++ (`Int.tdiv`, `Int.tmod`).  `syncAtNextLine`, which is called
  at any time after the frame start, keeps its `int` values in 32 bits
  (`toInt32`) and its `EmuTime` result in 64 bits; `scheduleHscan` computes
  on the integers, and what is proved of the time it schedules is stated
  inside one video frame, where the tick counts stay far below `2^31`.
* Calls into collaborators whose code is elsewhere (renderer, command engine,
  VRAM, Y8950, DAC) are recorded, in order, in a call log that is part of the
  state.
-/

namespace openmsx

/-! ## Virtual time -/

/-- Modelled from the spec: `EmuTime` (EmuTime.hh is not among the sources) is
an absolute point on the virtual clock, a count of master-clock ticks. -/
abbrev EmuTime := Nat

/-- An 8-bit value. -/
abbrev byte := Nat

/-- Modelled from the spec: `Clock<FREQ>` (Clock.hh is not among the sources),
a clock that ticks once every `masterTicks` master-clock ticks and remembers
the time of its last tick. -/
structure Clock where
  lastTick : EmuTime
deriving DecidableEq

/-- Modelled from the spec: `Clock::getTicksTill(e)`, the number of whole
clock ticks between the last tick and `e` (the caller guarantees
`lastTick ≤ e`). -/
def Clock.getTicksTill (c : Clock) (masterTicks : Nat) (e : EmuTime) : Nat :=
  (e - c.lastTick) / masterTicks

/-- Modelled from the spec: `Clock::operator+(n)`, the time at which the clock
will have ticked `n` more times. -/
def Clock.plus (c : Clock) (masterTicks : Nat) (n : Nat) : EmuTime :=
  c.lastTick + n * masterTicks

/-- Modelled from the spec: `Clock::advance(e)`, move the last tick to the
latest tick boundary that is not after `e`. -/
def Clock.advance (c : Clock) (masterTicks : Nat) (e : EmuTime) : Clock :=
  ⟨e - (e - c.lastTick) % masterTicks⟩

/-! ## Scheduler -/

/-- Modelled from the spec: a SyncPoint is a pending event, made of a firing
time, the Schedulable it belongs to and that component's discriminator
(Scheduler.hh is not among the sources). -/
structure SyncPoint where
  time : EmuTime
  device : Nat
  userData : Nat
deriving DecidableEq

/-- Modelled from the spec: the Scheduler state is the current virtual time
and the ordered collection of pending SyncPoints; `dispatched` is the log of
the callbacks invoked so far, oldest first. -/
structure Scheduler where
  currentTime : EmuTime
  syncPoints : List SyncPoint
  dispatched : List SyncPoint
deriving DecidableEq

/-- Modelled from the spec: the queue is ordered by firing time and two
SyncPoints at the same time are dispatched in registration order, so a new
SyncPoint goes behind every pending one that is not later than it. -/
def insertSyncPoint (sp : SyncPoint) : List SyncPoint → List SyncPoint
  | [] => [sp]
  | x :: xs =>
    if x.time ≤ sp.time then x :: insertSyncPoint sp xs else sp :: x :: xs

/-- Modelled from the spec: `Scheduler::setSyncPoint`, the insertion that
`registerCallback` performs once its precondition is met. -/
def Scheduler.setSyncPoint (s : Scheduler) (time : EmuTime) (device userData : Nat) :
    Scheduler :=
  { s with syncPoints := insertSyncPoint ⟨time, device, userData⟩ s.syncPoints }

/-- Modelled from the spec: `registerCallback(component, time, discriminator)`
inserts a SyncPoint; a `time` before the current virtual time is a fatal
internal-consistency error (`none`). -/
def Scheduler.registerCallback (s : Scheduler) (device : Nat) (time : EmuTime)
    (userData : Nat) : Option Scheduler :=
  if time < s.currentTime then none else some (s.setSyncPoint time device userData)

/-- Modelled from the spec: `cancelCallback(component, discriminator)` removes
a previously registered, not-yet-fired SyncPoint if present (the earliest one
for the pair) and is a no-op if absent. -/
def Scheduler.removeSyncPoint (s : Scheduler) (device userData : Nat) : Scheduler :=
  { s with syncPoints :=
      s.syncPoints.eraseP (fun sp => sp.device == device && sp.userData == userData) }

/-- Modelled from the spec: `cancelCallback`, the spec's name for
`removeSyncPoint`. -/
def Scheduler.cancelCallback (s : Scheduler) (device userData : Nat) : Scheduler :=
  s.removeSyncPoint device userData

/-- Modelled from the spec: the dispatch loop of `runUntil`.  While the
earliest pending SyncPoint is due by `limit` it is popped, the current time
becomes its firing time and its callback is invoked; the callbacks of the
model only record the invocation in the log.  The result is the time reached,
the log and the SyncPoints still pending. -/
def dispatchDue (limit : EmuTime) :
    List SyncPoint → EmuTime → List SyncPoint → EmuTime × List SyncPoint × List SyncPoint
  | [], now, log => (now, log, [])
  | sp :: rest, now, log =>
    if sp.time ≤ limit then dispatchDue limit rest sp.time (log ++ [sp])
    else (now, log, sp :: rest)

/-- Modelled from the spec: `runUntil(limitTime)` dispatches every SyncPoint
due by `limitTime`, earliest first, then advances the current virtual time to
`limitTime` itself. -/
def Scheduler.runUntil (s : Scheduler) (limit : EmuTime) : Scheduler :=
  let r := dispatchDue limit s.syncPoints s.currentTime s.dispatched
  { currentTime := limit, syncPoints := r.2.2, dispatched := r.2.1 }

/-- Modelled from the spec: a sequence of `registerCallback` calls, each given
as (component, time, discriminator); the first fatal error aborts the run. -/
def Scheduler.registerAll (s : Scheduler) : List SyncPoint → Option Scheduler
  | [] => some s
  | sp :: rest =>
    match s.registerCallback sp.device sp.time sp.userData with
    | none => none
    | some s1 => s1.registerAll rest

/-! ## V9990 video display processor (video/v9990/V9990.cc) -/

/-- The discriminators of the V9990 SyncPoints (V9990.hh is not among the
sources; the order is the one `V9990::reset` cancels them in). -/
inductive V9990SyncType
  | V9990_VSYNC
  | V9990_DISPLAY_START
  | V9990_VSCAN
  | V9990_HSCAN
  | V9990_SET_MODE
  | V9990_SET_BLANK
deriving DecidableEq

/-- The integer that is handed to the Scheduler as `userData`. -/
def V9990SyncType.toNat : V9990SyncType → Nat
  | .V9990_VSYNC => 0
  | .V9990_DISPLAY_START => 1
  | .V9990_VSCAN => 2
  | .V9990_HSCAN => 3
  | .V9990_SET_MODE => 4
  | .V9990_SET_BLANK => 5

/-- Display modes that `calcDisplayMode` and the timing selection mention. -/
inductive V9990DisplayMode
  | INVALID_DISPLAY_MODE | P1 | P2 | B0 | B1 | B2 | B3 | B4 | B5 | B6 | B7
deriving DecidableEq

/-- Colour modes that `getColorMode` can return. -/
inductive V9990ColorMode
  | INVALID_COLOR_MODE | BP2 | BP4 | BP6 | BD8 | BYJK | BYUV | BD16
deriving DecidableEq

/-- `enum RegisterAccess { NO_ACCESS, RD_ONLY, WR_ONLY, RD_WR }`. -/
inductive RegisterAccess
  | NO_ACCESS | RD_ONLY | WR_ONLY | RD_WR
deriving DecidableEq

/-- One row of the vertical timing tables: numbers of lines
(V9990DisplayTiming.hh is not among the sources). -/
structure V9990DisplayPeriod where
  blank : Nat
  border1 : Nat
  display : Nat
  border2 : Nat
deriving DecidableEq

/-- The constants of `V9990DisplayTiming`, whose header is not among the
sources; the functions of the device take them as a parameter.
`masterTicks` is the number of master-clock ticks in one UC tick, the period
of `frameStartTime`, a `Clock<UC_TICKS_PER_SECOND>`. -/
structure V9990DisplayTiming where
  UC_TICKS_PER_LINE : Nat
  getUCTicksPerFrame : Bool → Nat
  displayNTSC_MCLK : V9990DisplayPeriod
  displayNTSC_XTAL : V9990DisplayPeriod
  displayPAL_MCLK : V9990DisplayPeriod
  displayPAL_XTAL : V9990DisplayPeriod
  masterTicks : Nat

/-- Which table `verTiming` points to. -/
inductive VerTiming
  | displayNTSC_MCLK | displayNTSC_XTAL | displayPAL_MCLK | displayPAL_XTAL
deriving DecidableEq

/-- Which table `horTiming` points to. -/
inductive HorTiming
  | lineMCLK | lineXTAL
deriving DecidableEq

/-- A call into a collaborator of the V9990 (Scheduler, renderer, command
engine, VRAM), with its arguments. -/
inductive Call
  | setSyncPoint (time : EmuTime) (type : V9990SyncType)
  | removeSyncPoint (type : V9990SyncType)
  | writeVRAMSlow (addr : Nat) (val : byte)
  | readVRAMSlow (addr : Nat)
  | setCmdData (val : byte) (time : EmuTime)
  | setCmdReg (reg val : byte) (time : EmuTime)
  | getCmdData (time : EmuTime)
  | getStatus (time : EmuTime)
  | getBorderX (time : EmuTime)
  | cmdEngineReset (time : EmuTime)
  | rendererReset (time : EmuTime)
  | frameStart (time : EmuTime)
  | frameEnd (time : EmuTime)
  | updateDisplayEnabled (enabled : Bool) (time : EmuTime)
  | setDisplayMode (mode : V9990DisplayMode) (time : EmuTime)
  | setColorMode (mode : V9990ColorMode) (time : EmuTime)
  | updatePalette (index r g b : byte) (time : EmuTime)
  | updateBackgroundColor (index : byte) (time : EmuTime)
  | updateScrollAYLow (time : EmuTime)
  | updateScrollAYHigh (time : EmuTime)
  | updateScrollAX (time : EmuTime)
  | updateScrollBY (time : EmuTime)
  | updateScrollBX (time : EmuTime)
deriving DecidableEq

/-- The state of a `V9990` object together with the Scheduler it registers
its SyncPoints with and the log of the calls it made to its collaborators. -/
structure V9990 where
  regs : Nat → byte
  palette : Nat → byte
  status : byte
  regSelect : byte
  pendingIRQs : byte
  irq : Bool
  palTiming : Bool
  isDisplayArea : Bool
  displayEnabled : Bool
  mode : V9990DisplayMode
  horTiming : HorTiming
  verTiming : VerTiming
  frameStartTime : Clock
  hScanSyncTime : EmuTime
  scheduler : Scheduler
  calls : List Call

namespace V9990

/-! Port, register and interrupt numbers (V9990.hh is not among the sources;
the register numbers are the positions in the `regAccess` table). -/

def VRAM_DATA : Nat := 0
def PALETTE_DATA : Nat := 1
def COMMAND_DATA : Nat := 2
def REGISTER_DATA : Nat := 3
def REGISTER_SELECT : Nat := 4
def STATUS : Nat := 5
def INTERRUPT_FLAG : Nat := 6
def SYSTEM_CONTROL : Nat := 7
def KANJI_ROM_0 : Nat := 8
def KANJI_ROM_1 : Nat := 9
def KANJI_ROM_2 : Nat := 10
def KANJI_ROM_3 : Nat := 11

def VRAM_WRITE_ADDRESS_0 : Nat := 0
def VRAM_WRITE_ADDRESS_2 : Nat := 2
def VRAM_READ_ADDRESS_0 : Nat := 3
def VRAM_READ_ADDRESS_2 : Nat := 5
def SCREEN_MODE_0 : Nat := 6
def SCREEN_MODE_1 : Nat := 7
def CONTROL : Nat := 8
def INTERRUPT_0 : Nat := 9
def INTERRUPT_1 : Nat := 10
def INTERRUPT_2 : Nat := 11
def INTERRUPT_3 : Nat := 12
def PALETTE_CONTROL : Nat := 13
def PALETTE_POINTER : Nat := 14
def BACK_DROP_COLOR : Nat := 15
def SCROLL_CONTROL_AY0 : Nat := 17
def SCROLL_CONTROL_AY1 : Nat := 18
def SCROLL_CONTROL_AX0 : Nat := 19
def SCROLL_CONTROL_AX1 : Nat := 20
def SCROLL_CONTROL_BY0 : Nat := 21
def SCROLL_CONTROL_BY1 : Nat := 22
def SCROLL_CONTROL_BX0 : Nat := 23
def SCROLL_CONTROL_BX1 : Nat := 24
def CMD_PARAM_SRC_ADDRESS_0 : Nat := 32
def CMD_PARAM_BORDER_X_0 : Nat := 53

def VER_IRQ : Nat := 1
def HOR_IRQ : Nat := 2
def CMD_IRQ : Nat := 4

/-- The identity under which the V9990 is known to the Scheduler. -/
def deviceId : Nat := 0

/-- The table `regAccess[64]`. -/
def regAccess : List RegisterAccess :=
  [ .WR_ONLY, .WR_ONLY, .WR_ONLY,           -- VRAM Write Address
    .WR_ONLY, .WR_ONLY, .WR_ONLY,           -- VRAM Read Address
    .RD_WR, .RD_WR,                         -- Screen Mode
    .RD_WR,                                 -- Control
    .RD_WR, .RD_WR, .RD_WR, .RD_WR,         -- Interrupt
    .WR_ONLY,                               -- Palette Control
    .WR_ONLY,                               -- Palette Pointer
    .RD_WR,                                 -- Back Drop Color
    .RD_WR,                                 -- Display Adjust
    .RD_WR, .RD_WR, .RD_WR, .RD_WR,         -- Scroll Control A
    .RD_WR, .RD_WR, .RD_WR, .RD_WR,         -- Scroll Control B
    .RD_WR,                                 -- Sprite Pattern Table Adress
    .RD_WR,                                 -- LCD Control
    .RD_WR,                                 -- Priority Control
    .WR_ONLY,                               -- Sprite Palette Control
    .NO_ACCESS, .NO_ACCESS, .NO_ACCESS,     -- 3x not used
    .WR_ONLY, .WR_ONLY, .WR_ONLY, .WR_ONLY, -- Cmd Parameter Src XY
    .WR_ONLY, .WR_ONLY, .WR_ONLY, .WR_ONLY, -- Cmd Parameter Dest XY
    .WR_ONLY, .WR_ONLY, .WR_ONLY, .WR_ONLY, -- Cmd Parameter Size XY
    .WR_ONLY, .WR_ONLY, .WR_ONLY, .WR_ONLY, -- Cmd Parameter Arg, LogOp, WrtMask
    .WR_ONLY, .WR_ONLY, .WR_ONLY, .WR_ONLY, -- Cmd Parameter Font Color
    .WR_ONLY, .RD_ONLY, .RD_ONLY,           -- Cmd Parameter OpCode, Border X
    .NO_ACCESS, .NO_ACCESS, .NO_ACCESS,     -- registers 55-63
    .NO_ACCESS, .NO_ACCESS, .NO_ACCESS,
    .NO_ACCESS, .NO_ACCESS, .NO_ACCESS ]

/-- The table `regWriteMask[32]` of `writeRegister`. -/
def regWriteMask : List byte :=
  [ 0xFF, 0xFF, 0xFF, 0xFF, 0xFF, 0xFF, 0xFF, 0xFF,
    0xFF, 0x87, 0xFF, 0x83, 0x0F, 0xFF, 0xFF, 0xFF,
    0xFF, 0xFF, 0xDF, 0x07, 0xFF, 0xFF, 0xC1, 0x07,
    0x3F, 0xCF, 0xFF, 0xFF, 0xFF, 0xFF, 0xFF, 0xFF ]

/-- Assignment `regs[reg] = val`. -/
def setReg (s : V9990) (reg : Nat) (val : byte) : V9990 :=
  { s with regs := fun r => if r = reg then val else s.regs r }

/-- Assignment `palette[reg] = val`. -/
def setPal (s : V9990) (reg : Nat) (val : byte) : V9990 :=
  { s with palette := fun r => if r = reg then val else s.palette r }

/-- Record a call to a collaborator. -/
def call (s : V9990) (c : Call) : V9990 :=
  { s with calls := s.calls ++ [c] }

/-- The device's `Schedulable::setSyncPoint(time, userData)`. -/
def setSyncPoint (s : V9990) (time : EmuTime) (type : V9990SyncType) : V9990 :=
  { s with
    scheduler := s.scheduler.setSyncPoint time deviceId type.toNat
    calls := s.calls ++ [.setSyncPoint time type] }

/-- The device's `Schedulable::removeSyncPoint(userData)`. -/
def removeSyncPoint (s : V9990) (type : V9990SyncType) : V9990 :=
  { s with
    scheduler := s.scheduler.removeSyncPoint deviceId type.toNat
    calls := s.calls ++ [.removeSyncPoint type] }

/-- The number of pending SyncPoints of the V9990 with discriminator `type`. -/
def pendingCount (s : V9990) (type : V9990SyncType) : Nat :=
  s.scheduler.syncPoints.countP (fun sp => sp.device == deviceId && sp.userData == type.toNat)

/-- The row `getVerticalTiming()` returns, that is `*verTiming`. -/
def getVerticalTiming (T : V9990DisplayTiming) (s : V9990) : V9990DisplayPeriod :=
  match s.verTiming with
  | .displayNTSC_MCLK => T.displayNTSC_MCLK
  | .displayNTSC_XTAL => T.displayNTSC_XTAL
  | .displayPAL_MCLK => T.displayPAL_MCLK
  | .displayPAL_XTAL => T.displayPAL_XTAL

/-- The value a 32-bit two's complement C++ `int` holds when `x` is stored in
it. -/
def toInt32 (x : Int) : Int := (x + 2147483648) % 4294967296 - 2147483648

/-- The value of an `int` converted to `uint64`, the argument type of
`Clock::operator+`. -/
def toUint64 (x : Int) : Nat := (x % 18446744073709551616).toNat

/-- The inline `getUCTicksThisFrame(time)`, that is
`frameStartTime.getTicksTill(time)` stored in an `int`. -/
def getUCTicksThisFrame (T : V9990DisplayTiming) (s : V9990) (time : EmuTime) : Int :=
  toInt32 ((s.frameStartTime.getTicksTill T.masterTicks time : Nat) : Int)

/-- `V9990::setHorizontalTiming`; the modes B5 and B6 leave the pointer alone
and the `assert(false)` of the default case is never reached, because
`calcDisplayMode` has replaced an invalid mode by P1. -/
def setHorizontalTiming (s : V9990) : V9990 :=
  match s.mode with
  | .P1 | .P2 | .B1 | .B3 | .B7 => { s with horTiming := .lineMCLK }
  | .B0 | .B2 | .B4 => { s with horTiming := .lineXTAL }
  | .B5 | .B6 => s
  | .INVALID_DISPLAY_MODE => s

/-- `V9990::setVerticalTiming`, with `isPalTiming()` being `palTiming`. -/
def setVerticalTiming (s : V9990) : V9990 :=
  match s.mode with
  | .P1 | .P2 | .B1 | .B3 | .B7 =>
    { s with verTiming := if s.palTiming then .displayPAL_MCLK else .displayNTSC_MCLK }
  | .B0 | .B2 | .B4 =>
    { s with verTiming := if s.palTiming then .displayPAL_XTAL else .displayNTSC_XTAL }
  | .B5 | .B6 => s
  | .INVALID_DISPLAY_MODE => s

/-- `V9990::getColorMode(pal_ctrl)`.  The first test is written
`!regs[SCREEN_MODE_0] & 0x80` in the source: the negation is applied first and
gives 0 or 1. -/
def getColorMode (s : V9990) (pal_ctrl : byte) : V9990ColorMode :=
  let mode : V9990ColorMode :=
    if (if s.regs SCREEN_MODE_0 = 0 then 1 else 0) &&& 0x80 ≠ 0 then .BP4
    else
      match s.regs SCREEN_MODE_0 &&& 0x03 with
      | 0 => .BP2
      | 1 => .BP4
      | 2 =>
        match pal_ctrl &&& 0xC0 with
        | 0x00 => .BP6
        | 0x40 => .BD8
        | 0x80 => .BYJK
        | 0xC0 => .BYUV
        | _ => .INVALID_COLOR_MODE
      | 3 => .BD16
      | _ => .INVALID_COLOR_MODE
  match mode with
  | .INVALID_COLOR_MODE => .BP4
  | m => m

/-- `V9990::calcDisplayMode`. -/
def calcDisplayMode (s : V9990) : V9990 :=
  let mode : V9990DisplayMode :=
    match s.regs SCREEN_MODE_0 &&& 0xC0 with
    | 0x00 => .P1
    | 0x40 => .P2
    | 0x80 =>
      if s.status &&& 0x04 ≠ 0 then
        match s.regs SCREEN_MODE_0 &&& 0x30 with
        | 0x00 => .B0
        | 0x10 => .B2
        | 0x20 => .B4
        | _ => .INVALID_DISPLAY_MODE
      else
        match s.regs SCREEN_MODE_0 &&& 0x30 with
        | 0x00 => .B1
        | 0x10 => .B3
        | 0x20 => .B7
        | _ => .INVALID_DISPLAY_MODE
    | _ => .INVALID_DISPLAY_MODE
  let checked : V9990DisplayMode :=
    match mode with
    | .INVALID_DISPLAY_MODE => .P1
    | m => m
  setHorizontalTiming { s with mode := checked }

/-- `V9990::raiseIRQ`. -/
def raiseIRQ (s : V9990) (irqType : Nat) : V9990 :=
  let s1 := { s with pendingIRQs := s.pendingIRQs ||| irqType }
  if s1.pendingIRQs &&& s1.regs INTERRUPT_0 ≠ 0 then { s1 with irq := true } else s1

/-- `V9990::syncAtNextLine`. -/
def syncAtNextLine (T : V9990DisplayTiming) (s : V9990) (type : V9990SyncType)
    (time : EmuTime) : V9990 :=
  let line : Int := Int.tdiv (getUCTicksThisFrame T s time) T.UC_TICKS_PER_LINE
  let ticks : Int := toInt32 ((line + 1) * T.UC_TICKS_PER_LINE)
  -- `frameStartTime + ticks`: the `int` becomes a `uint64` tick count and the
  -- sum is a 64-bit `EmuTime`
  let nextTime : EmuTime :=
    s.frameStartTime.plus T.masterTicks (toUint64 ticks) % 18446744073709551616
  setSyncPoint s nextTime type

/-- `V9990::scheduleHscan`. -/
def scheduleHscan (T : V9990DisplayTiming) (s : V9990) (time : EmuTime) : V9990 :=
  -- remove pending HSCAN, if any
  let s1 : V9990 :=
    if s.hScanSyncTime > time then
      { removeSyncPoint s .V9990_HSCAN with hScanSyncTime := time }
    else s
  if s1.pendingIRQs &&& HOR_IRQ ≠ 0 then
    -- flag already set, no need to schedule
    s1
  else
    let ticks : Int := ((s1.frameStartTime.getTicksTill T.masterTicks time : Nat) : Int)
    let offset : Int :=
      if s1.regs INTERRUPT_2 &&& 0x80 ≠ 0 then
        -- every line
        ticks - Int.tmod ticks T.UC_TICKS_PER_LINE
      else
        let line : Int :=
          (s1.regs INTERRUPT_1 : Int) + 256 * ((s1.regs INTERRUPT_2 &&& 3 : Nat) : Int) +
            (getVerticalTiming T s1).blank + (getVerticalTiming T s1).border1
        line * T.UC_TICKS_PER_LINE
    let mult : Int := if s1.status &&& 0x04 ≠ 0 then 3 else 2 -- MCLK / XTAL1
    let offset : Int := offset + ((s1.regs INTERRUPT_3 &&& 0x0F : Nat) : Int) * 64 * mult
    let offset : Int :=
      if offset ≤ ticks then offset + T.getUCTicksPerFrame s1.palTiming else offset
    let hScanSyncTime : EmuTime := s1.frameStartTime.plus T.masterTicks offset.toNat
    setSyncPoint { s1 with hScanSyncTime := hScanSyncTime } hScanSyncTime .V9990_HSCAN

/-- `V9990::getVRAMAddr`. -/
def getVRAMAddr (s : V9990) (base : Nat) : Nat :=
  s.regs (base + 0) + (s.regs (base + 1) <<< 8) + ((s.regs (base + 2) &&& 0x07) <<< 16)

/-- `V9990::setVRAMAddr`. -/
def setVRAMAddr (s : V9990) (base : Nat) (addr : Nat) : V9990 :=
  let s1 := setReg s (base + 0) (addr &&& 0xFF)
  let s2 := setReg s1 (base + 1) ((addr &&& 0xFF00) >>> 8)
  setReg s2 (base + 2) (((addr &&& 0x070000) >>> 16) ||| (s2.regs (base + 2) &&& 0x80))

/-- `V9990::writePaletteRegister`; `reg` is a `byte`. -/
def writePaletteRegister (s : V9990) (reg val : byte) (time : EmuTime) : V9990 :=
  let val : byte :=
    match reg &&& 3 with
    | 0 => val &&& 0x9F
    | 1 => val &&& 0x1F
    | 2 => val &&& 0x1F
    | _ => 0x00
  let s1 := setPal s reg val
  let reg : byte := reg &&& 0xFC
  let index : byte := reg / 4
  let s2 := call s1 (.updatePalette index (s1.palette (reg + 0)) (s1.palette (reg + 1))
    (s1.palette (reg + 2)) time)
  if index = s2.regs BACK_DROP_COLOR then call s2 (.updateBackgroundColor index time) else s2

/-- `V9990::writeRegister`; `reg` is below 64 (the source asserts it) and
`val` is a `byte`. -/
def writeRegister (T : V9990DisplayTiming) (s : V9990) (reg val : byte) (time : EmuTime) :
    V9990 :=
  if regAccess.getD reg .NO_ACCESS = .NO_ACCESS ∨ regAccess.getD reg .NO_ACCESS = .RD_ONLY then
    -- register not writable
    s
  else if reg ≥ CMD_PARAM_SRC_ADDRESS_0 then
    call s (.setCmdReg reg val time)
  else
    let val : byte := val &&& regWriteMask.getD reg 0
    let change : byte := s.regs reg ^^^ val
    -- Perform additional tasks before new value becomes active
    let s1 : V9990 :=
      if reg = SCREEN_MODE_0 ∨ reg = SCREEN_MODE_1 then
        syncAtNextLine T s .V9990_SET_MODE time
      else if reg = CONTROL then
        if change &&& 0x80 ≠ 0 then syncAtNextLine T s .V9990_SET_BLANK time else s
      else if reg = PALETTE_CONTROL then
        call s (.setColorMode (getColorMode s val) time)
      else if reg = BACK_DROP_COLOR then
        call s (.updateBackgroundColor (val &&& 63) time)
      else if reg = SCROLL_CONTROL_AY0 then call s (.updateScrollAYLow time)
      else if reg = SCROLL_CONTROL_AY1 then call s (.updateScrollAYHigh time)
      else if reg = SCROLL_CONTROL_AX0 ∨ reg = SCROLL_CONTROL_AX1 then
        call s (.updateScrollAX time)
      else if reg = SCROLL_CONTROL_BY0 ∨ reg = SCROLL_CONTROL_BY1 then
        call s (.updateScrollBY time)
      else if reg = SCROLL_CONTROL_BX0 ∨ reg = SCROLL_CONTROL_BX1 then
        call s (.updateScrollBX time)
      else s
    -- commit the change
    let s2 := setReg s1 reg val
    -- Perform additional tasks after new value became active
    if reg = INTERRUPT_0 then
      if s2.pendingIRQs &&& val ≠ 0 then { s2 with irq := true } else { s2 with irq := false }
    else if reg = INTERRUPT_1 ∨ reg = INTERRUPT_2 ∨ reg = INTERRUPT_3 then
      scheduleHscan T s2 time
    else s2

/-- The pointer stepping that follows a palette access:
`switch (palPtr & 3)` on the `byte` `regs[PALETTE_POINTER]`. -/
def nextPalPtr (palPtr : byte) : byte :=
  match palPtr &&& 3 with
  | 0 => (palPtr + 1) % 256 -- red
  | 1 => (palPtr + 1) % 256 -- green
  | 2 => (palPtr + 2) % 256 -- blue
  | _ => (palPtr + 256 - 3) % 256 -- checked on real V9990

/-- `V9990::writeIO`; `port` is a `word` and `val` a `byte`. -/
def writeIO (T : V9990DisplayTiming) (s : V9990) (port : Nat) (val : byte)
    (time : EmuTime) : V9990 :=
  let port := port &&& 0x0F
  if port = VRAM_DATA then
    -- write VRAM
    let addr := getVRAMAddr s VRAM_WRITE_ADDRESS_0
    let s1 := call s (.writeVRAMSlow addr val)
    if s1.regs VRAM_WRITE_ADDRESS_2 &&& 0x80 = 0 then
      setVRAMAddr s1 VRAM_WRITE_ADDRESS_0 (addr + 1)
    else s1
  else if port = PALETTE_DATA then
    let s1 := writePaletteRegister s (s.regs PALETTE_POINTER) val time
    setReg s1 PALETTE_POINTER (nextPalPtr (s1.regs PALETTE_POINTER))
  else if port = COMMAND_DATA then
    call s (.setCmdData val time)
  else if port = REGISTER_DATA then
    -- write register
    let s1 := writeRegister T s (s.regSelect &&& 0x3F) val time
    if s1.regSelect &&& 0x80 = 0 then
      { s1 with regSelect := (s1.regSelect &&& 0xC0) ||| ((s1.regSelect + 1) &&& 0x3F) }
    else s1
  else if port = REGISTER_SELECT then
    { s with regSelect := val }
  else if port = STATUS then
    -- read-only, ignore writes
    s
  else if port = INTERRUPT_FLAG then
    let s1 : V9990 := { s with pendingIRQs := s.pendingIRQs &&& (val ^^^ 0xFF) }
    let s2 : V9990 :=
      if s1.pendingIRQs &&& s1.regs INTERRUPT_0 = 0 then { s1 with irq := false } else s1
    scheduleHscan T s2 time
  else if port = SYSTEM_CONTROL then
    let s1 : V9990 := { s with status := (s.status &&& 0xFB) ||| ((val &&& 1) <<< 2) }
    syncAtNextLine T s1 .V9990_SET_MODE time
  else
    -- KANJI_ROM_0 .. KANJI_ROM_3: not used in Gfx9000, ignore; default: ignore
    s

/-- What the command engine returns to the V9990.  The command engine is
not among the sources; its answer may depend on the calls made so far and on
the time. -/
structure Collaborators where
  getBorderX : List Call → EmuTime → Nat

/-- `V9990::readRegister`: the device after the read and the byte read; `reg`
is below 64 (the source asserts it).  `borderX` is a `word`. -/
def readRegister (C : Collaborators) (s : V9990) (reg : byte) (time : EmuTime) :
    V9990 × byte :=
  if regAccess.getD reg .NO_ACCESS ≠ .NO_ACCESS ∧ regAccess.getD reg .NO_ACCESS ≠ .WR_ONLY then
    if reg < CMD_PARAM_BORDER_X_0 then
      (s, s.regs reg)
    else
      let borderX : Nat := C.getBorderX s.calls time % 0x10000
      (call s (.getBorderX time),
        if reg = CMD_PARAM_BORDER_X_0 then borderX &&& 0xFF else borderX >>> 8)
  else
    (s, 0xFF)

/-- `V9990RegDebug::read`. -/
def regDebugRead (s : V9990) (address : Nat) : byte :=
  s.regs address

/-- `V9990RegDebug::write`; the `unsigned` address becomes the `byte`
parameter of `writeRegister`. -/
def regDebugWrite (T : V9990DisplayTiming) (s : V9990) (address : Nat) (value : byte)
    (time : EmuTime) : V9990 :=
  writeRegister T s (address % 256) value time

/-- `V9990PalDebug::read`. -/
def palDebugRead (s : V9990) (address : Nat) : byte :=
  s.palette address

/-- `V9990PalDebug::write`; the `unsigned` address becomes the `byte`
parameter of `writePaletteRegister`. -/
def palDebugWrite (s : V9990) (address : Nat) (value : byte) (time : EmuTime) : V9990 :=
  writePaletteRegister s (address % 256) value time

/-- One write that reaches the device from outside: a port write of the CPU,
or a write through the register or the palette debuggable. -/
inductive Write
  | io (port : Nat) (val : byte) (time : EmuTime)
  | regDebug (address : Nat) (value : byte) (time : EmuTime)
  | palDebug (address : Nat) (value : byte) (time : EmuTime)

/-- Perform one write. -/
def applyWrite (T : V9990DisplayTiming) (s : V9990) : Write → V9990
  | .io port val time => writeIO T s port val time
  | .regDebug address value time => regDebugWrite T s address value time
  | .palDebug address value time => palDebugWrite s address value time

/-- The palette format "R, G, B, 0": entry `i` keeps red in `palette[4i]`
with only the bits of 0x9F, green and blue in `palette[4i+1]` and
`palette[4i+2]` with five bits each, and zero in `palette[4i+3]`. -/
def paletteFormat (palette : Nat → byte) : Prop :=
  ∀ i, i < 64 →
    palette (4 * i) &&& 0x9F = palette (4 * i) ∧ palette (4 * i) &&& 0x60 = 0 ∧
    palette (4 * i + 1) ≤ 0x1F ∧ palette (4 * i + 2) ≤ 0x1F ∧ palette (4 * i + 3) = 0

/-- The same format told byte by byte: what the byte at index `r` may hold
depends on `r % 4`. -/
def paletteBytesOk (palette : Nat → byte) : Prop :=
  ∀ r, (r % 4 = 0 → palette r &&& 0x9F = palette r) ∧ (r % 4 = 1 → palette r ≤ 0x1F) ∧
    (r % 4 = 2 → palette r ≤ 0x1F) ∧ (r % 4 = 3 → palette r = 0)

/-- `V9990::frameStart`. -/
def frameStart (T : V9990DisplayTiming) (s : V9990) (time : EmuTime) : V9990 :=
  -- Update setings that are fixed at the start of a frame
  let s1 : V9990 := { s with palTiming := (s.regs SCREEN_MODE_1 &&& 0x08 ≠ 0 : Bool) }
  let s2 := setVerticalTiming s1
  let s3 : V9990 := { s2 with status := s2.status ^^^ 0x02 } -- flip EO bit
  let s4 : V9990 := { s3 with frameStartTime := s3.frameStartTime.advance T.masterTicks time }
  -- schedule next VSYNC
  let s5 := setSyncPoint s4
    (s4.frameStartTime.plus T.masterTicks (T.getUCTicksPerFrame s4.palTiming)) .V9990_VSYNC
  -- schedule DISPLAY_START
  let topBorder : Nat := (getVerticalTiming T s5).blank + (getVerticalTiming T s5).border1
  let s6 := setSyncPoint s5
    (s5.frameStartTime.plus T.masterTicks (topBorder * T.UC_TICKS_PER_LINE)) .V9990_DISPLAY_START
  -- schedule VSCAN
  let bottomBorder : Nat := topBorder + (getVerticalTiming T s6).display
  let s7 := setSyncPoint s6
    (s6.frameStartTime.plus T.masterTicks (bottomBorder * T.UC_TICKS_PER_LINE)) .V9990_VSCAN
  call s7 (.frameStart time)

/-- `V9990::reset`. -/
def reset (T : V9990DisplayTiming) (s : V9990) (time : EmuTime) : V9990 :=
  let s := removeSyncPoint s .V9990_VSYNC
  let s := removeSyncPoint s .V9990_DISPLAY_START
  let s := removeSyncPoint s .V9990_VSCAN
  let s := removeSyncPoint s .V9990_HSCAN
  let s := removeSyncPoint s .V9990_SET_MODE
  let s := removeSyncPoint s .V9990_SET_BLANK
  -- Clear registers / ports
  let s : V9990 := { s with regs := fun _ => 0, status := 0, regSelect := 0xFF }
  let s := calcDisplayMode s
  let s : V9990 := { s with isDisplayArea := false, displayEnabled := false }
  -- Reset IRQs
  let s := writeIO T s INTERRUPT_FLAG 0xFF time
  let s : V9990 := { s with palTiming := false }
  -- Reset sub-systems
  let s := call s (.rendererReset time)
  let s := call s (.cmdEngineReset time)
  -- Init scheduling
  frameStart T s time

/-- The six cancellations `reset` starts with, as they appear in the call
log. -/
def resetCancels : List Call :=
  [.removeSyncPoint .V9990_VSYNC, .removeSyncPoint .V9990_DISPLAY_START,
   .removeSyncPoint .V9990_VSCAN, .removeSyncPoint .V9990_HSCAN,
   .removeSyncPoint .V9990_SET_MODE, .removeSyncPoint .V9990_SET_BLANK]

/-- The inline `isDisplayEnabled()` of V9990.hh, which is not among the
sources: the display is enabled inside the display area only. -/
def isDisplayEnabled (s : V9990) : Bool :=
  s.isDisplayArea && s.displayEnabled

/-- `V9990::executeUntil`; a `userData` that is not one of the six
discriminators runs into `assert(false)` (`none`). -/
def executeUntil (T : V9990DisplayTiming) (s : V9990) (time : EmuTime) (userData : Nat) :
    Option V9990 :=
  match userData with
  | 0 => -- V9990_VSYNC: transition from one frame to the next
    some (frameStart T (call s (.frameEnd time)) time)
  | 1 => -- V9990_DISPLAY_START
    let s1 := if s.displayEnabled then call s (.updateDisplayEnabled true time) else s
    some { s1 with isDisplayArea := true }
  | 2 => -- V9990_VSCAN
    let s1 := if isDisplayEnabled s then call s (.updateDisplayEnabled false time) else s
    some (raiseIRQ { s1 with isDisplayArea := false } VER_IRQ)
  | 3 => -- V9990_HSCAN
    some (raiseIRQ s HOR_IRQ)
  | 4 => -- V9990_SET_MODE
    let s1 := calcDisplayMode s
    let s2 := call s1 (.setDisplayMode s1.mode time)
    some (call s2 (.setColorMode (getColorMode s2 (s2.regs PALETTE_CONTROL)) time))
  | 5 => -- V9990_SET_BLANK
    let newDisplayEnabled : Bool := (s.regs CONTROL &&& 0x80 ≠ 0 : Bool)
    let s1 :=
      if s.isDisplayArea then call s (.updateDisplayEnabled newDisplayEnabled time) else s
    some { s1 with displayEnabled := newDisplayEnabled }
  | _ => none

/-- The constructor `V9990::V9990`, given the Scheduler of the machine.  The
members the constructor leaves uninitialised (`status`, `regSelect`,
`isDisplayArea`, `displayEnabled`) start at zero here; `reset` assigns each
of them before it is read. -/
def create (T : V9990DisplayTiming) (scheduler : Scheduler) (time : EmuTime) : V9990 :=
  let s : V9990 :=
    { regs := fun _ => 0
      palette := fun _ => 0
      status := 0
      regSelect := 0
      pendingIRQs := 0
      irq := false
      palTiming := false
      isDisplayArea := false
      displayEnabled := false
      mode := .INVALID_DISPLAY_MODE
      horTiming := .lineMCLK
      verTiming := .displayNTSC_MCLK
      frameStartTime := ⟨time⟩
      hScanSyncTime := time
      scheduler := scheduler
      calls := [] }
  -- clear regs
  let s := calcDisplayMode s
  -- initialize palette
  let s : V9990 :=
    { s with palette := fun r =>
        if r < 256 then
          (match r % 4 with
           | 0 => 0x9F
           | 1 => 0x1F
           | 2 => 0x1F
           | _ => 0x00)
        else s.palette r }
  -- Start with NTSC timing
  let s : V9990 := { s with palTiming := false }
  let s := setVerticalTiming s
  -- Initialise rendering system
  let s := call s (.rendererReset time)
  reset T s time

end V9990

/-- A timing table on which the model is evaluated in examples: 1368 UC ticks
per line, 262 lines in an NTSC frame and 313 in a PAL frame, 4 master-clock
ticks per UC tick. -/
def sampleTiming : V9990DisplayTiming where
  UC_TICKS_PER_LINE := 1368
  getUCTicksPerFrame := fun pal => if pal then 1368 * 313 else 1368 * 262
  displayNTSC_MCLK := ⟨15, 14, 212, 21⟩
  displayNTSC_XTAL := ⟨15, 0, 240, 7⟩
  displayPAL_MCLK := ⟨15, 39, 212, 47⟩
  displayPAL_XTAL := ⟨15, 0, 290, 8⟩
  masterTicks := 4

/-- A command engine for examples: its border X is always 0x1234. -/
def sampleCollaborators : V9990.Collaborators where
  getBorderX := fun _ _ => 0x1234

/-- A Scheduler at time zero with nothing pending. -/
def Scheduler.initial : Scheduler :=
  { currentTime := 0, syncPoints := [], dispatched := [] }

/-! ## Rom (memory/Rom.hh) and Rom16kBBlocks (memory/Rom16kBBlocks.cc) -/

/-- The ROM image of a `Rom`: `size` is the length of `data`, and it is an
`unsigned`. -/
structure Rom where
  data : List byte
  size_fits : data.length < 4294967296

/-- `Rom::getSize`. -/
def Rom.getSize (rom : Rom) : Nat := rom.data.length

/-- `Rom::operator[]`: the byte at `address`; `assert(address < size)` fails
for any other address (`none`). -/
def Rom.index (rom : Rom) (address : Nat) : Option byte :=
  if address < rom.getSize then rom.data[address]? else none

/-- Conversion of an `int` to `unsigned`. -/
def toUnsigned (x : Int) : Nat := (x % 4294967296).toNat

/-- What a `const byte*` of the `bank` array points to: a byte of the ROM
image, given by its offset, or the page `MSXDevice::unmappedRead`. -/
inductive BankPtr
  | rom (offset : Nat)
  | unmappedRead
deriving DecidableEq

/-- The state of a `Rom16kBBlocks`: its ROM, the four bank pointers and the
log of the `invalidateMemCache(start, size)` calls. -/
structure Rom16kBBlocks where
  rom : Rom
  bank : Nat → BankPtr
  invalidated : List (Nat × Nat)

namespace Rom16kBBlocks

/-- `Rom16kBBlocks::readMem`, the byte `bank[address >> 14][address & 0x3FFF]`.
A pointer into the ROM image can only be read inside the image (`none`
otherwise); `MSXDevice::unmappedRead`, which is not among the sources, is a
page of 0xFF bytes. -/
def readMem (s : Rom16kBBlocks) (address : Nat) : Option byte :=
  match s.bank (address >>> 14) with
  | .rom offset => s.rom.data[offset + (address &&& 0x3FFF)]?
  | .unmappedRead => some 0xFF

/-- `Rom16kBBlocks::setBank`. -/
def setBank (s : Rom16kBBlocks) (region : Nat) (adr : BankPtr) : Rom16kBBlocks :=
  { s with
    bank := fun r => if r = region then adr else s.bank r
    invalidated := s.invalidated ++ [(region * 0x4000, 0x4000)] }

/-- `Rom16kBBlocks::setRom`; `block` is an `int`, `block << 14` is
`block * 0x4000`, and the result is `none` when the assertion of
`Rom::operator[]` fails. -/
def setRom (s : Rom16kBBlocks) (region : Nat) (block : Int) : Option Rom16kBBlocks :=
  let nrBlocks : Int := ((s.rom.getSize >>> 14 : Nat) : Int)
  if nrBlocks ≠ 0 then
    let block : Int := if block < nrBlocks then block else Int.land block (nrBlocks - 1)
    match s.rom.index (toUnsigned (block * 0x4000)) with
    | some _ => some (setBank s region (.rom (toUnsigned (block * 0x4000))))
    | none => none
  else
    some (setBank s region .unmappedRead)

/-- A sequence of `setRom(region, block)` calls; the first failing assertion
ends it. -/
def setRoms (s : Rom16kBBlocks) : List (Nat × Int) → Option Rom16kBBlocks
  | [] => some s
  | (region, block) :: rest =>
    match setRom s region block with
    | some s1 => setRoms s1 rest
    | none => none

/-- The constructor `Rom16kBBlocks::Rom16kBBlocks`: `setRom(i, 0)` for the four
regions.  The bank pointers are uninitialised before that; the model starts
them at the unmapped page. -/
def create (rom : Rom) : Option Rom16kBBlocks :=
  setRoms { rom := rom, bank := fun _ => .unmappedRead, invalidated := [] }
    [(0, 0), (1, 0), (2, 0), (3, 0)]

end Rom16kBBlocks

/-- A 48 kB ROM image whose byte at offset `i` is `i % 251`, for examples. -/
def sampleRom : Rom where
  data := (List.range 49152).map (fun i => i % 251)
  size_fits := by rw [List.length_map, List.length_range]; decide

/-- A `Rom16kBBlocks` on the sample ROM before any bank is selected. -/
def sampleBlocks : Rom16kBBlocks :=
  { rom := sampleRom, bank := fun _ => .unmappedRead, invalidated := [] }

/-! ## MSX-AUDIO (sound/MSXAudio.cc) -/

/-- The interface of the `Y8950` sound chip, whose code is not among the
sources, over a state type `σ`.  `writeReg` returns the new chip state and the
`periphery.write(outputs, values, time)` calls the chip makes while it handles
the register write; `readReg` and `readStatus` return the new chip state and
the value read. -/
structure Y8950Model (σ : Type) where
  writeReg : σ → byte → byte → EmuTime → σ × List (Nat × Nat)
  readReg : σ → byte → EmuTime → σ × byte
  readStatus : σ → σ × byte
  peekReg : σ → byte → EmuTime → byte
  peekStatus : σ → byte
  setEnabled : σ → Bool → EmuTime → σ
  reset : σ → EmuTime → σ

/-- The three `Y8950Periphery` implementations MSXAudio chooses from. -/
inductive PeripheryType
  | philips -- MusicModulePeriphery
  | panasonic -- PanasonicAudioPeriphery
  | toshiba -- ToshibaAudioPeriphery
deriving DecidableEq

/-- A call MSXAudio (or its periphery) makes on the Y8950 or on the DAC. -/
inductive AudioCall
  | writeReg (reg val : byte) (time : EmuTime)
  | readReg (reg : byte) (time : EmuTime)
  | readStatus
  | setEnabled (enabled : Bool) (time : EmuTime)
  | writeDAC (val : byte) (time : EmuTime)
deriving DecidableEq

/-- The state of an `MSXAudio` device: its members, the state of its Y8950,
whether `dac` is non-null (it is created for the Philips type only) and the
log of the calls made on the Y8950 and the DAC. -/
structure MSXAudio (σ : Type) where
  registerLatch : byte
  dacValue : byte
  dacEnabled : Bool
  hasDac : Bool
  periphery : PeripheryType
  y8950 : σ
  calls : List AudioCall

namespace MSXAudio

variable {σ : Type}

/-- `MSXAudio::enableDAC`. -/
def enableDAC (s : MSXAudio σ) (enable : Bool) (time : EmuTime) : MSXAudio σ :=
  if s.dacEnabled ≠ enable then
    let s1 : MSXAudio σ := { s with dacEnabled := enable }
    if s1.hasDac then
      let value : byte := if s1.dacEnabled then s1.dacValue else 0x80
      { s1 with calls := s1.calls ++ [.writeDAC value time] }
    else s1
  else s

/-- `MusicModulePeriphery::read`. -/
def musicModuleRead : Nat := 8

/-- The `write(outputs, values, time)` of the periphery in use.  For the
Philips Music Module `actual = (outputs & values) | (~outputs & read(time))`;
`read` returns 8, so `~outputs & read(time)` is bit 3 of `outputs` negated.
The Panasonic and Toshiba peripheries do nothing. -/
def peripheryWrite (Y : Y8950Model σ) (s : MSXAudio σ) (outputs values : Nat)
    (time : EmuTime) : MSXAudio σ :=
  match s.periphery with
  | .philips =>
    let actual : Nat := (outputs &&& values) ||| ((outputs &&& musicModuleRead) ^^^ musicModuleRead)
    let s1 : MSXAudio σ :=
      { s with
        y8950 := Y.setEnabled s.y8950 (actual &&& 8 ≠ 0) time
        calls := s.calls ++ [.setEnabled (actual &&& 8 ≠ 0) time] }
    enableDAC s1 (actual &&& 1 ≠ 0) time
  | .panasonic => s
  | .toshiba => s

/-- `MSXAudio::writeIO`; `port` is a `word`. -/
def writeIO (Y : Y8950Model σ) (s : MSXAudio σ) (port : Nat) (value : byte)
    (time : EmuTime) : MSXAudio σ :=
  if port &&& 0xFF = 0x0A then
    let s1 : MSXAudio σ := { s with dacValue := value }
    if s1.dacEnabled && s1.hasDac then
      { s1 with calls := s1.calls ++ [.writeDAC s1.dacValue time] }
    else s1
  else if port &&& 0x01 = 0 then
    -- 0xC0 or 0xC2
    { s with registerLatch := value }
  else
    -- 0xC1 or 0xC3
    let r := Y.writeReg s.y8950 s.registerLatch value time
    let s1 : MSXAudio σ :=
      { s with y8950 := r.1, calls := s.calls ++ [.writeReg s.registerLatch value time] }
    r.2.foldl (fun st w => peripheryWrite Y st w.1 w.2 time) s1

/-- `MSXAudio::readIO`: the device after the read and the byte read. -/
def readIO (Y : Y8950Model σ) (s : MSXAudio σ) (port : Nat) (time : EmuTime) :
    MSXAudio σ × byte :=
  if port &&& 0xFF = 0x0A then
    -- read DAC
    (s, 255)
  else if port &&& 1 ≠ 0 then
    let r := Y.readReg s.y8950 s.registerLatch time
    ({ s with y8950 := r.1, calls := s.calls ++ [.readReg s.registerLatch time] }, r.2)
  else
    let r := Y.readStatus s.y8950
    ({ s with y8950 := r.1, calls := s.calls ++ [.readStatus] }, r.2)

/-- `MSXAudio::peekIO`. -/
def peekIO (Y : Y8950Model σ) (s : MSXAudio σ) (port : Nat) (time : EmuTime) : byte :=
  if port &&& 0xFF = 0x0A then
    -- read DAC: read always returns 255
    255
  else if port &&& 1 ≠ 0 then Y.peekReg s.y8950 s.registerLatch time
  else Y.peekStatus s.y8950

/-- The register writes issued to the Y8950 so far, oldest first. -/
def y8950Writes (s : MSXAudio σ) : List (byte × byte) :=
  s.calls.filterMap (fun c =>
    match c with
    | .writeReg reg val _ => some (reg, val)
    | _ => none)

end MSXAudio

/-- A stand-in Y8950 for examples: its state is the register file; a write to
register 0x18 or 0x19 drives the I/O pins (`periphery.write(reg 0x18, reg
0x19)`), the status is register 0. -/
def sampleY8950 : Y8950Model (Nat → byte) where
  writeReg := fun regs reg val _ =>
    let regs1 : Nat → byte := fun r => if r = reg then val else regs r
    (regs1, if reg = 0x18 ∨ reg = 0x19 then [(regs1 0x18, regs1 0x19)] else [])
  readReg := fun regs reg _ => (regs, regs reg)
  readStatus := fun regs => (regs, regs 0)
  peekReg := fun regs reg _ => regs reg
  peekStatus := fun regs => regs 0
  setEnabled := fun regs _ _ => regs
  reset := fun _ _ => fun _ => 0

/-- A Philips Music Module as its constructor and `reset` leave it
(`dacValue` 0x80, DAC disabled, latch 0), on the stand-in Y8950. -/
def sampleAudio : MSXAudio (Nat → byte) :=
  { registerLatch := 0, dacValue := 0x80, dacEnabled := false, hasDac := true,
    periphery := .philips, y8950 := fun _ => 0, calls := [] }

/-! ## ROM database (memory/RomDatabase.cc) -/

/-- The mapper type of a ROM (RomTypes.hh is not among the sources): unknown,
or one of the known types, numbered. -/
inductive RomType
  | ROM_UNKNOWN
  | known (id : Nat)
deriving DecidableEq

/-- The fields of a `RomInfo` (RomInfo.hh is not among the sources), in the
order of the constructor call in `parseEntry`. -/
structure RomInfo where
  title : String
  year : String
  company : String
  country : String
  original : Bool
  origType : String
  remark : String
  romType : RomType
deriving DecidableEq

/-- The code of a character with the upper-case letters A to Z folded to
lower case, as `strcasecmp` compares them. -/
def lowerCode (c : Char) : Nat :=
  if 65 ≤ c.toNat ∧ c.toNat ≤ 90 then c.toNat + 32 else c.toNat

/-- `StringOp::caseless` (StringOp.hh is not among the sources) orders strings
ignoring letter case; two keys are the same key of a `DBMap` when they are
equal ignoring case. -/
def caselessEq (a b : String) : Bool :=
  a.data.map lowerCode == b.data.map lowerCode

/-- `typedef map<string, RomInfo*, StringOp::caseless> DBMap`, as an
association list in insertion order with at most one entry per key. -/
abbrev DBMap := List (String × RomInfo)

/-- `DBMap::find`: the entry stored under a key equal to `sha1` ignoring
case. -/
def DBMap.find (m : DBMap) (sha1 : String) : Option (String × RomInfo) :=
  List.find? (fun e => caselessEq e.1 sha1) m

/-- Lexicographic order on character codes. -/
def codesLess : List Nat → List Nat → Bool
  | [], [] => false
  | [], _ :: _ => true
  | _ :: _, [] => false
  | a :: as, b :: bs => a < b || (a == b && codesLess as bs)

/-- `std::string::operator<`, the order of the keys of a `map<string, T>`. -/
def stringLess (a b : String) : Bool :=
  codesLess (a.data.map Char.toNat) (b.data.map Char.toNat)

/-- `typedef map<string, unsigned> UnknownTypes`: the entries, in the order
in which the map iterates over them (ascending keys). -/
abbrev UnknownTypes := List (String × Nat)

/-- `unknownTypes[type]++`: a key that is new is entered at its place in the
key order, with count 1. -/
def UnknownTypes.increment : UnknownTypes → String → UnknownTypes
  | [], type => [(type, 1)]
  | (t, n) :: rest, type =>
    if t = type then (t, n + 1) :: rest
    else if stringLess type t then (type, 1) :: (t, n) :: rest
    else (t, n) :: UnknownTypes.increment rest type

/-- The arguments of one `parseEntry` call: the `hash` children of the `rom`
or `megarom` element as (algo, data) pairs, and the values `parseSoftware` and
`parseDump` collected for it.  The XML traversal of `parseDB`, whose XML
classes are not among the sources, is summarised by the list of `parseEntry`
calls it makes, in document order. -/
structure ParsedRom where
  hashTags : List (String × String)
  title : String
  year : String
  company : String
  country : String
  original : Bool
  origType : String
  remark : String
  type : String
deriving DecidableEq

/-- What `openDB` finds at one path of the system file context. -/
inductive DBFile
  | unreadable -- FileException: couldn't read file
  | malformed (message : String) -- XMLException
  | document (roms : List ParsedRom)
deriving DecidableEq

/-- The module-level state of RomDatabase.cc: the function-local
`static bool init`, `romDBSHA1`, `unknownTypes`, and the warnings printed
through `CliComm` so far. -/
structure RomDatabaseStatics where
  init : Bool
  romDBSHA1 : DBMap
  unknownTypes : UnknownTypes
  warnings : List String
deriving DecidableEq

namespace RomDatabase

/-- The state at program start: nothing loaded. -/
def initialStatics : RomDatabaseStatics :=
  { init := false, romDBSHA1 := [], unknownTypes := [], warnings := [] }

/-- `addEntry`: the map and the warnings after the call. -/
def addEntry (warnings : List String) (romInfo : RomInfo) (sha1 : String) (result : DBMap) :
    List String × DBMap :=
  if (DBMap.find result sha1).isNone then
    (warnings, result ++ [(sha1, romInfo)])
  else
    (warnings ++ ["duplicate softwaredb entry SHA1: " ++ sha1], result)

/-- `parseEntry`; `nameToRomType` is `RomInfo::nameToRomType`, which is not
among the sources.  The state threaded through is (warnings, unknownTypes,
result). -/
def parseEntry (nameToRomType : String → RomType) (rom : ParsedRom)
    (st : List String × UnknownTypes × DBMap) : List String × UnknownTypes × DBMap :=
  rom.hashTags.foldl
    (fun acc tag =>
      if tag.1 ≠ "sha1" then acc
      else
        let romType := nameToRomType rom.type
        let unknown := if romType = .ROM_UNKNOWN then acc.2.1.increment rom.type else acc.2.1
        let romInfo : RomInfo :=
          { title := rom.title, year := rom.year, company := rom.company,
            country := rom.country, original := rom.original, origType := rom.origType,
            remark := rom.remark, romType := romType }
        let r := addEntry acc.1 romInfo tag.2 acc.2.2
        (r.1, unknown, r.2))
    st

/-- `parseDB`: every `parseEntry` call of the document, in order. -/
def parseDB (nameToRomType : String → RomType) (roms : List ParsedRom)
    (st : List String × UnknownTypes × DBMap) : List String × UnknownTypes × DBMap :=
  roms.foldl (fun acc rom => parseEntry nameToRomType rom acc) st

/-- The loop body of `initDatabase` for one path: open the file, parse it into
a fresh map `tmp`, and move the entries whose key is new into `romDBSHA1`. -/
def loadFile (nameToRomType : String → RomType) (st : RomDatabaseStatics) (file : DBFile) :
    RomDatabaseStatics :=
  match file with
  | .unreadable => st
  | .malformed message =>
    { st with warnings := st.warnings ++
        ["Could not parse ROM DB: " ++ message ++ "\n" ++
         "Romtype detection might fail because of this."] }
  | .document roms =>
    let r := parseDB nameToRomType roms (st.warnings, st.unknownTypes, [])
    let merged : DBMap :=
      r.2.2.foldl
        (fun db e => if (DBMap.find db e.1).isNone then db ++ [e] else db)
        st.romDBSHA1
    { st with warnings := r.1, unknownTypes := r.2.1, romDBSHA1 := merged }

/-- The text of the warning about unknown mapper types. -/
def unknownTypesWarning (u : UnknownTypes) : String :=
  u.foldl (fun out e => out ++ e.1 ++ " (" ++ toString e.2 ++ "x); ")
    "Unknown mapper types in software database: "

/-- `RomDatabase::initDatabase`; `files` is what `openDB` finds at the paths
of the system file context, in order. -/
def initDatabase (nameToRomType : String → RomType) (files : List DBFile)
    (st : RomDatabaseStatics) : RomDatabaseStatics :=
  if st.init then st
  else
    let st1 : RomDatabaseStatics := { st with init := true }
    let st2 := files.foldl (loadFile nameToRomType) st1
    let st3 : RomDatabaseStatics :=
      if st2.romDBSHA1.isEmpty then
        { st2 with warnings := st2.warnings ++
            ["Couldn't load software database.\n" ++
             "This may cause incorrect ROM mapper types to be used."] }
      else st2
    if ¬ st3.unknownTypes.isEmpty then
      { st3 with warnings := st3.warnings ++ [unknownTypesWarning st3.unknownTypes] }
    else st3

/-- The constructor `RomDatabase::RomDatabase`, which calls `initDatabase`. -/
def create (nameToRomType : String → RomType) (files : List DBFile)
    (st : RomDatabaseStatics) : RomDatabaseStatics :=
  initDatabase nameToRomType files st

/-- `RomDatabase::fetchRomInfo`. -/
def fetchRomInfo (st : RomDatabaseStatics) (sha1sum : String) : Option RomInfo :=
  match DBMap.find st.romDBSHA1 sha1sum with
  | some e => some e.2
  | none => none

end RomDatabase

/-- An element appended to a `TclObject` list: `addListElement` is called
with a string, or with the `bool` of `getOriginal()`, which selects the `int`
overload. -/
inductive TclValue
  | string (value : String)
  | int (value : Int)
deriving DecidableEq

namespace SoftwareInfoTopic

/-- `SoftwareInfoTopic::execute`: the `result` list after the call, or the
message of the `CommandException` thrown.  `tokens` holds the strings of the
token objects and `romTypeToName` is `RomInfo::romTypeToName`, which is not
among the sources. -/
def execute (romTypeToName : RomType → String) (st : RomDatabaseStatics)
    (tokens : List String) (result : List TclValue) : Except String (List TclValue) :=
  if tokens.length ≠ 3 then
    .error "Wrong number of parameters"
  else
    let sha1sum := tokens.getD 2 ""
    match RomDatabase.fetchRomInfo st sha1sum with
    | none =>
      -- no match found
      .error ("Software with sha1sum " ++ sha1sum ++ " not found")
    | some romInfo =>
      .ok (result ++
        [ .string "title", .string romInfo.title,
          .string "year", .string romInfo.year,
          .string "company", .string romInfo.company,
          .string "country", .string romInfo.country,
          .string "orig_type", .string romInfo.origType,
          .string "remark", .string romInfo.remark,
          .string "original", .int (if romInfo.original then 1 else 0),
          .string "mapper_type_name", .string (romTypeToName romInfo.romType) ])

/-- `SoftwareInfoTopic::help`. -/
def help (_tokens : List String) : String :=
  "Gives information about the software " ++ "given its sha1sum, in a paired list."

end SoftwareInfoTopic

/-- The sequence of (SHA1, RomInfo) pairs a database file offers, in document
order: one pair for every `hash` child with `algo` "sha1" of every parsed
`rom` or `megarom` element. -/
def RomDatabase.fileEntries (nameToRomType : String → RomType) (roms : List ParsedRom) :
    List (String × RomInfo) :=
  roms.flatMap (fun rom =>
    (rom.hashTags.filter (fun tag => tag.1 == "sha1")).map (fun tag =>
      (tag.2,
        { title := rom.title, year := rom.year, company := rom.company,
          country := rom.country, original := rom.original, origType := rom.origType,
          remark := rom.remark, romType := nameToRomType rom.type })))

/-- The pairs of all files, those of an earlier path first; unreadable and
malformed files offer none. -/
def RomDatabase.allEntries (nameToRomType : String → RomType) (files : List DBFile) :
    List (String × RomInfo) :=
  files.flatMap (fun file =>
    match file with
    | .document roms => RomDatabase.fileEntries nameToRomType roms
    | _ => [])

/-- What the claim says `fetchRomInfo` returns: the first entry, in the order
of the paths and of the documents, whose SHA1 equals `sha1sum` ignoring case,
and NULL when there is none. -/
def RomDatabase.firstEntry (nameToRomType : String → RomType) (files : List DBFile)
    (sha1sum : String) : Option RomInfo :=
  ((RomDatabase.allEntries nameToRomType files).find? (fun e => caselessEq e.1 sha1sum)).map
    (fun e => e.2)

/-- Mapper names for examples, the inverse of `sampleNameToRomType`. -/
def sampleRomTypeToName (type : RomType) : String :=
  match type with
  | .known 1 => "Mirrored"
  | .known 2 => "Konami"
  | _ => "Unknown"

/-- A mapper-name table for examples: two known names, everything else
unknown. -/
def sampleNameToRomType (name : String) : RomType :=
  if name = "Mirrored" then .known 1 else if name = "Konami" then .known 2 else .ROM_UNKNOWN

/-- Two database files for examples; the second repeats a SHA1 of the first in
upper case. -/
def sampleFiles : List DBFile :=
  [ .document
      [ { hashTags := [("sha1", "abc1")], title := "Game A", year := "1985",
          company := "X", country := "JP", original := true, origType := "ROM",
          remark := "", type := "Konami" },
        { hashTags := [("md5", "ffff"), ("sha1", "abc2")], title := "Game B", year := "1986",
          company := "Y", country := "NL", original := false, origType := "",
          remark := "", type := "Strange" } ],
    .unreadable,
    .document
      [ { hashTags := [("sha1", "ABC1")], title := "Game A bis", year := "1987",
          company := "Z", country := "JP", original := true, origType := "ROM",
          remark := "", type := "Mirrored" } ] ]

end openmsx

/-! # Theorems -/

namespace openmsx

open V9990

/-! ## V9990 scheduling -/

theorem next_line_arith (last time M L : Nat) (hM : 0 < M) (hL : 0 < L) (h : last ≤ time) :
    time < last + (((time - last) / M) / L + 1) * L * M ∧
    last + (((time - last) / M) / L + 1) * L * M ≤ time + L * M := by
  obtain ⟨d, rfl⟩ := Nat.exists_eq_add_of_le h
  simp only [Nat.add_sub_cancel_left]
  have h1 := Nat.div_add_mod d M
  have h2 := Nat.mod_lt d hM
  have h3 := Nat.div_add_mod (d / M) L
  have h4 := Nat.mod_lt (d / M) hL
  generalize d / M = t at *
  generalize d % M = r at *
  generalize t / L = q at *
  generalize t % L = r2 at *
  subst h3
  subst h1
  constructor <;> nlinarith

/-- An `int` holds a value between 0 and `2^31 - 1` unchanged. -/
theorem toInt32_natCast (n : Nat) (h : n ≤ 2147483647) : toInt32 (n : Int) = (n : Int) := by
  unfold toInt32
  omega

/-- A natural number below `2^64` converts to `uint64` unchanged. -/
theorem toUint64_natCast (n : Nat) (h : n < 18446744073709551616) :
    toUint64 (n : Int) = n := by
  unfold toUint64
  omega

/-- The start of the next line is not before the current tick. -/
theorem le_next_line (ticks L : Nat) (hL : 0 < L) : ticks ≤ (ticks / L + 1) * L := by
  have h1 := Nat.div_add_mod ticks L
  have h2 := Nat.mod_lt ticks hL
  nlinarith

/-- The `int` value `(line + 1) * UC_TICKS_PER_LINE` that `syncAtNextLine`
computes is `(ticks / L + 1) * L` whenever that number fits an `int`. -/
theorem syncAtNextLine_ticks (ticks L : Nat) (hL : 0 < L)
    (h : (ticks / L + 1) * L ≤ 2147483647) :
    toInt32 ((Int.tdiv (toInt32 (ticks : Int)) (L : Int) + 1) * (L : Int)) =
      (((ticks / L + 1) * L : Nat) : Int) := by
  rw [toInt32_natCast ticks (Nat.le_trans (le_next_line ticks L hL) h)]
  have hd : Int.tdiv (ticks : Int) (L : Int) = ((ticks / L : Nat) : Int) := rfl
  rw [hd]
  have h2 : (((ticks / L : Nat) : Int) + 1) * (L : Int) = (((ticks / L + 1) * L : Nat) : Int) := by
    push_cast; ring
  rw [h2, toInt32_natCast _ h]

/-- C1, with the bounds under which it holds: `syncAtNextLine(type, time)`
registers the SyncPoint at `frameStartTime + (floor(ticks / L) + 1) * L`, with
`ticks = frameStartTime.getTicksTill(time)` and `L = UC_TICKS_PER_LINE > 0`,
provided `(floor(ticks / L) + 1) * L` fits the 32-bit `int` it is computed in
(`hI`) and the resulting time fits the 64-bit `EmuTime` (`hE`); that time is
strictly later than `time`, at most `L` ticks later than `time`, and a whole
multiple of `L` ticks after the frame start.  Nothing else of the device
changes, and when `time` is not before the current virtual time the
registration meets the precondition of `registerCallback`. -/
theorem syncAtNextLine_next_line (T : V9990DisplayTiming) (s : V9990) (type : V9990SyncType)
    (time : EmuTime) (hM : 0 < T.masterTicks) (hL : 0 < T.UC_TICKS_PER_LINE)
    (hT : s.frameStartTime.lastTick ≤ time)
    (hI : (s.frameStartTime.getTicksTill T.masterTicks time / T.UC_TICKS_PER_LINE + 1) *
      T.UC_TICKS_PER_LINE ≤ 2147483647)
    (hE : s.frameStartTime.plus T.masterTicks
      ((s.frameStartTime.getTicksTill T.masterTicks time / T.UC_TICKS_PER_LINE + 1) *
        T.UC_TICKS_PER_LINE) < 18446744073709551616) :
    let L := T.UC_TICKS_PER_LINE
    let ticks := s.frameStartTime.getTicksTill T.masterTicks time
    let next := s.frameStartTime.plus T.masterTicks ((ticks / L + 1) * L)
    syncAtNextLine T s type time = setSyncPoint s next type ∧
    (syncAtNextLine T s type time).scheduler.syncPoints =
      insertSyncPoint ⟨next, deviceId, type.toNat⟩ s.scheduler.syncPoints ∧
    time < next ∧
    next ≤ time + L * T.masterTicks ∧
    next = s.frameStartTime.lastTick + ((ticks / L + 1) * L) * T.masterTicks ∧
    (s.scheduler.currentTime ≤ time →
      s.scheduler.registerCallback deviceId next type.toNat =
        some (syncAtNextLine T s type time).scheduler) := by
  intro L ticks next
  have hnext : syncAtNextLine T s type time = setSyncPoint s next type := by
    simp only [syncAtNextLine, getUCTicksThisFrame]
    rw [syncAtNextLine_ticks _ _ hL hI,
      toUint64_natCast _ (Nat.lt_of_le_of_lt hI (by norm_num)), Nat.mod_eq_of_lt hE]
  have ha := next_line_arith s.frameStartTime.lastTick time T.masterTicks
    T.UC_TICKS_PER_LINE hM hL hT
  refine ⟨hnext, ?_, ha.1, ha.2, rfl, ?_⟩
  · rw [hnext]
    rfl
  · intro hnow
    have hlt : ¬ next < s.scheduler.currentTime :=
      Nat.not_lt.mpr (Nat.le_trans hnow (Nat.le_of_lt ha.1))
    rw [hnext]
    simp only [Scheduler.registerCallback, if_neg hlt]
    rfl

/-- C1 at work: right after construction at time 0, a request at time 10 (tick
2 of line 0) is scheduled at the start of line 1. -/
theorem syncAtNextLine_next_line_witness :
    (syncAtNextLine sampleTiming (create sampleTiming Scheduler.initial 0)
        .V9990_SET_MODE 10).scheduler.syncPoints =
      insertSyncPoint ⟨5472, deviceId, 4⟩
        (create sampleTiming Scheduler.initial 0).scheduler.syncPoints ∧
    10 < 5472 ∧ 5472 ≤ 10 + 1368 * 4 :=
  ⟨(syncAtNextLine_next_line sampleTiming (create sampleTiming Scheduler.initial 0)
      .V9990_SET_MODE 10 (by decide) (by decide) (by decide) (by decide) (by decide)).2.1,
    by decide, by decide⟩

/-- C1 as stated fails once `(floor(ticks / L) + 1) * L` no longer fits a
32-bit `int`.  A V9990 constructed at time `2^34` has its frame start there;
at `time = 2^34 + (2^31 - 1) * 4` the tick count is `2^31 - 1`, still a
non-negative `int`, line is 1569797 and `(line + 1) * 1368 = 2147483664` wraps
to `-2147483632`, so `frameStartTime + ticks` is `2^34 - 2147483632 * 4 =
8589934656`: the SyncPoint is registered before `time`, and not at
`frameStartTime + (floor(ticks / L) + 1) * L`. -/
theorem syncAtNextLine_int_overflow :
    (V9990.create sampleTiming Scheduler.initial 17179869184).frameStartTime.lastTick =
      17179869184 ∧
    getUCTicksThisFrame sampleTiming (V9990.create sampleTiming Scheduler.initial 17179869184)
      25769803772 = 2147483647 ∧
    toInt32 ((Int.tdiv 2147483647 1368 + 1) * 1368) = -2147483632 ∧
    (syncAtNextLine sampleTiming (V9990.create sampleTiming Scheduler.initial 17179869184)
        .V9990_SET_MODE 25769803772).scheduler.syncPoints =
      insertSyncPoint ⟨8589934656, deviceId, 4⟩
        (V9990.create sampleTiming Scheduler.initial 17179869184).scheduler.syncPoints ∧
    8589934656 < 25769803772 ∧
    8589934656 ≠ 17179869184 + (2147483647 / 1368 + 1) * 1368 * 4 := by
  decide


theorem countP_insertSyncPoint (p : SyncPoint → Bool) (sp : SyncPoint) (q : List SyncPoint) :
    (insertSyncPoint sp q).countP p = q.countP p + (if p sp then 1 else 0) := by
  induction q with
  | nil => simp [insertSyncPoint, List.countP_cons]
  | cons x xs ih =>
    simp only [insertSyncPoint]
    split
    · simp only [List.countP_cons, ih]; omega
    · simp only [List.countP_cons]

/-- Every `syncAtNextLine` adds a pending SyncPoint of its type; it cancels
none. -/
theorem pendingCount_syncAtNextLine (T : V9990DisplayTiming) (s : V9990)
    (type : V9990SyncType) (time : EmuTime) :
    pendingCount (syncAtNextLine T s type time) type = pendingCount s type + 1 := by
  simp [pendingCount, syncAtNextLine, setSyncPoint, Scheduler.setSyncPoint,
    countP_insertSyncPoint]

/-- A write to the SYSTEM_CONTROL port adds a pending V9990_SET_MODE SyncPoint
in every state, also when one is pending already. -/
theorem pendingCount_writeIO_SYSTEM_CONTROL (T : V9990DisplayTiming) (s : V9990) (val : byte)
    (time : EmuTime) :
    pendingCount ( writeIO T s SYSTEM_CONTROL val time) .V9990_SET_MODE =
      pendingCount s .V9990_SET_MODE + 1 := by
  have h : writeIO T s SYSTEM_CONTROL val time =
      syncAtNextLine T { s with status := (s.status &&& 0xFB) ||| ((val &&& 1) <<< 2) }
        .V9990_SET_MODE time := by
    rfl
  rw [h, pendingCount_syncAtNextLine]
  rfl

/-- C3 fails on the code: construct the V9990 at time 0 and write the
SYSTEM_CONTROL port at time 10 and again at time 20, both inside line 0.  No
V9990_SET_MODE SyncPoint is pending after construction, one is pending after
the first write, and the second write registers another one while the first
is still pending: two are pending afterwards. -/
theorem writeIO_SYSTEM_CONTROL_twice :
    pendingCount (create sampleTiming Scheduler.initial 0) .V9990_SET_MODE = 0 ∧
    pendingCount
      ( writeIO sampleTiming (create sampleTiming Scheduler.initial 0) SYSTEM_CONTROL 0 10)
      .V9990_SET_MODE = 1 ∧
    pendingCount
      ( writeIO sampleTiming
        ( writeIO sampleTiming (create sampleTiming Scheduler.initial 0) SYSTEM_CONTROL 0 10)
        SYSTEM_CONTROL 0 20) .V9990_SET_MODE = 2 := by
  decide

/-! ## Scheduler -/

/-- The queue after a sequence of registrations. -/
theorem registerAll_eq (regs : List SyncPoint) (s : Scheduler)
    (hge : ∀ sp ∈ regs, s.currentTime ≤ sp.time) :
    s.registerAll regs =
      some { s with syncPoints := regs.foldl (fun q sp => insertSyncPoint sp q) s.syncPoints } := by
  induction regs generalizing s with
  | nil => rfl
  | cons sp rest ih =>
    have h1 : ¬ sp.time < s.currentTime := Nat.not_lt.mpr (hge sp (List.mem_cons_self _ _))
    simp only [Scheduler.registerAll, Scheduler.registerCallback, if_neg h1]
    rw [ih]
    · rfl
    · intro x hx
      exact hge x (List.mem_cons_of_mem _ hx)

theorem insertSyncPoint_perm (sp : SyncPoint) (q : List SyncPoint) :
    (insertSyncPoint sp q).Perm (sp :: q) := by
  induction q with
  | nil => exact List.Perm.refl _
  | cons x xs ih =>
    simp only [insertSyncPoint]
    split
    · exact (List.Perm.cons x ih).trans (List.Perm.swap sp x xs)
    · exact List.Perm.refl _

theorem insertSyncPoint_sorted (sp : SyncPoint) (q : List SyncPoint)
    (h : q.Pairwise (fun a b => a.time ≤ b.time)) :
    (insertSyncPoint sp q).Pairwise (fun a b => a.time ≤ b.time) := by
  induction q with
  | nil => simp [insertSyncPoint]
  | cons x xs ih =>
    simp only [insertSyncPoint]
    rw [List.pairwise_cons] at h
    split
    · rename_i hx
      rw [List.pairwise_cons]
      refine ⟨?_, ih h.2⟩
      intro y hy
      rcases List.mem_cons.mp ((insertSyncPoint_perm sp xs).mem_iff.mp hy) with rfl | hy
      · exact hx
      · exact h.1 y hy
    · rename_i hx
      rw [List.pairwise_cons]
      refine ⟨?_, List.pairwise_cons.mpr h⟩
      intro y hy
      show sp.time ≤ y.time
      have hx2 : sp.time < x.time := Nat.lt_of_not_le hx
      rcases List.mem_cons.mp hy with e | hy
      · rw [e]; exact Nat.le_of_lt hx2
      · have h3 : x.time ≤ y.time := h.1 y hy
        exact Nat.le_trans (Nat.le_of_lt hx2) h3

/-- Registration order is kept among the SyncPoints of one firing time. -/
theorem insertSyncPoint_filter_time (t : EmuTime) (sp : SyncPoint) (q : List SyncPoint)
    (h : q.Pairwise (fun a b => a.time ≤ b.time)) :
    (insertSyncPoint sp q).filter (fun x => x.time = t) =
      q.filter (fun x => x.time = t) ++ [sp].filter (fun x => x.time = t) := by
  induction q with
  | nil => simp [insertSyncPoint]
  | cons x xs ih =>
    simp only [insertSyncPoint]
    rw [List.pairwise_cons] at h
    split
    · simp only [List.filter_cons, ih h.2]
      split <;> simp
    · rename_i hx
      by_cases hsp : sp.time = t
      · have hnone : (x :: xs).filter (fun y => decide (y.time = t)) = [] := by
          rw [List.filter_eq_nil_iff]
          intro y hy
          have hx2 : sp.time < x.time := Nat.lt_of_not_le hx
          have h3 : x.time ≤ y.time := by
            rcases List.mem_cons.mp hy with e | hy
            · rw [e]
            · exact h.1 y hy
          have h4 : y.time ≠ t := by
            intro e
            rw [e, ← hsp] at h3
            exact absurd hx2 (Nat.not_lt.mpr h3)
          simpa using h4
        rw [hnone]
        simp [List.filter_cons, hsp] at hnone ⊢
        exact hnone
      · simp [List.filter_cons, hsp]


theorem foldl_insertSyncPoint (regs q : List SyncPoint)
    (h : q.Pairwise (fun a b => a.time ≤ b.time)) :
    (regs.foldl (fun q sp => insertSyncPoint sp q) q).Pairwise (fun a b => a.time ≤ b.time) ∧
    (regs.foldl (fun q sp => insertSyncPoint sp q) q).Perm (q ++ regs) ∧
    ∀ t, (regs.foldl (fun q sp => insertSyncPoint sp q) q).filter (fun x => x.time = t) =
      q.filter (fun x => x.time = t) ++ regs.filter (fun x => x.time = t) := by
  induction regs generalizing q with
  | nil => simp [h]
  | cons sp rest ih =>
    obtain ⟨h1, h2, h3⟩ := ih (insertSyncPoint sp q) (insertSyncPoint_sorted sp q h)
    refine ⟨h1, ?_, ?_⟩
    · refine h2.trans ?_
      refine ((insertSyncPoint_perm sp q).append_right rest).trans ?_
      simp only [List.cons_append]
      exact List.perm_middle.symm
    · intro t
      rw [List.foldl_cons, h3 t, insertSyncPoint_filter_time t sp q h, List.append_assoc,
        ← List.filter_append]
      rfl

/-- On an ordered queue the dispatch loop fires the SyncPoints that are due, in
queue order, and leaves the later ones pending. -/
theorem dispatchDue_sorted (limit : EmuTime) (q : List SyncPoint) (now : EmuTime)
    (log : List SyncPoint) (h : q.Pairwise (fun a b => a.time ≤ b.time)) :
    (dispatchDue limit q now log).2.1 = log ++ q.filter (fun x => x.time ≤ limit) ∧
    (dispatchDue limit q now log).2.2 = q.filter (fun x => limit < x.time) := by
  induction q generalizing now log with
  | nil => simp [dispatchDue]
  | cons sp rest ih =>
    rw [List.pairwise_cons] at h
    simp only [dispatchDue]
    split
    · rename_i hsp
      obtain ⟨h1, h2⟩ := ih sp.time (log ++ [sp]) h.2
      rw [h1, h2]
      have hn : ¬ limit < sp.time := Nat.not_lt.mpr hsp
      simp [List.filter_cons, hsp, hn]
    · rename_i hsp
      have hlt : limit < sp.time := Nat.lt_of_not_le hsp
      have hall : ∀ y ∈ sp :: rest, limit < y.time := by
        intro y hy
        rcases List.mem_cons.mp hy with e | hy
        · rw [e]; exact hlt
        · exact Nat.lt_of_lt_of_le hlt (h.1 y hy)
      constructor
      · have : (sp :: rest).filter (fun x => decide (x.time ≤ limit)) = [] := by
          rw [List.filter_eq_nil_iff]
          intro y hy
          have h5 : limit < y.time := hall y hy
          simp only [decide_eq_true_eq]
          exact Nat.not_le.mpr h5
        rw [this, List.append_nil]
      · symm
        rw [List.filter_eq_self]
        intro y hy
        simpa using hall y hy

/-- C4: after any sequence of `registerCallback` calls with firing times not
before the current time (all of them succeed), `runUntil(limit)` dispatches
exactly the SyncPoints with firing time `<= limit` (a permutation of them), in
non-decreasing firing-time order, those of one firing time in registration
order; the SyncPoints left pending are later than `limit`, and the current
virtual time is `limit` afterwards. -/
theorem runUntil_dispatches (now : EmuTime) (regs : List SyncPoint) (limit : EmuTime)
    (hge : ∀ sp ∈ regs, now ≤ sp.time) :
    ∃ s : Scheduler,
      Scheduler.registerAll { currentTime := now, syncPoints := [], dispatched := [] } regs =
        some s ∧
      (s.runUntil limit).currentTime = limit ∧
      (s.runUntil limit).dispatched.Perm (regs.filter (fun sp => sp.time ≤ limit)) ∧
      (s.runUntil limit).dispatched.Pairwise (fun a b => a.time ≤ b.time) ∧
      (∀ t, (s.runUntil limit).dispatched.filter (fun sp => sp.time = t) =
        (regs.filter (fun sp => sp.time ≤ limit)).filter (fun sp => sp.time = t)) ∧
      (∀ sp ∈ (s.runUntil limit).syncPoints, limit < sp.time) := by
  obtain ⟨hs, hp, hf⟩ := foldl_insertSyncPoint regs [] List.Pairwise.nil
  obtain ⟨hd1, hd2⟩ := dispatchDue_sorted limit
    (regs.foldl (fun q sp => insertSyncPoint sp q) []) now [] hs
  refine ⟨_, registerAll_eq regs _ hge, rfl, ?_, ?_, ?_, ?_⟩
  · show (dispatchDue limit _ now []).2.1.Perm _
    rw [hd1, List.nil_append]
    exact hp.filter _
  · show (dispatchDue limit _ now []).2.1.Pairwise _
    rw [hd1, List.nil_append]
    exact hs.sublist (List.filter_sublist _)
  · intro t
    show (dispatchDue limit _ now []).2.1.filter _ = _
    rw [hd1, List.nil_append, List.filter_filter, List.filter_filter]
    have h := hf t
    simp only [List.filter_nil, List.nil_append] at h
    have e : ∀ l : List SyncPoint,
        l.filter (fun a => decide (a.time = t) && decide (a.time ≤ limit)) =
          (l.filter (fun a => decide (a.time = t))).filter (fun a => decide (a.time ≤ limit)) := by
      intro l
      rw [List.filter_filter]
      congr 1
      funext a
      exact Bool.and_comm _ _
    rw [e, e, h]
  · intro sp hsp
    have hsp2 : sp ∈ (dispatchDue limit (regs.foldl (fun q sp => insertSyncPoint sp q) [])
        now []).2.2 := hsp
    rw [hd2] at hsp2
    simpa using (List.mem_filter.mp hsp2).2

/-- C4 at work, the scenario of the specification: SyncPoints registered at
ticks 100, 100 and 50 for A:1, A:2 and B:1 (A is component 1, B component 2);
`runUntil(150)` fires B:1, then A:1, then A:2, and the current time is 150. -/
theorem runUntil_dispatches_witness :
    (∃ s : Scheduler,
      Scheduler.registerAll { currentTime := 0, syncPoints := [], dispatched := [] }
        [⟨100, 1, 1⟩, ⟨100, 1, 2⟩, ⟨50, 2, 1⟩] = some s ∧
      (s.runUntil 150).currentTime = 150 ∧
      (s.runUntil 150).dispatched = [⟨50, 2, 1⟩, ⟨100, 1, 1⟩, ⟨100, 1, 2⟩]) := by
  obtain ⟨s, h1, h2, -⟩ := runUntil_dispatches 0 [⟨100, 1, 1⟩, ⟨100, 1, 2⟩, ⟨50, 2, 1⟩] 150
    (by decide)
  refine ⟨s, h1, h2, ?_⟩
  have h3 : Scheduler.registerAll { currentTime := 0, syncPoints := [], dispatched := [] }
      [⟨100, 1, 1⟩, ⟨100, 1, 2⟩, ⟨50, 2, 1⟩] =
      some { currentTime := 0,
             syncPoints := [⟨50, 2, 1⟩, ⟨100, 1, 1⟩, ⟨100, 1, 2⟩], dispatched := [] } := by
    decide
  rw [Option.some.inj (h1.symm.trans h3)]
  decide


/-- Cancelling a pair that has no pending SyncPoint changes nothing. -/
theorem cancelCallback_absent (s : Scheduler) (device userData : Nat)
    (h : ∀ sp ∈ s.syncPoints, ¬ (sp.device = device ∧ sp.userData = userData)) :
    s.cancelCallback device userData = s := by
  have e : s.syncPoints.eraseP (fun sp => sp.device == device && sp.userData == userData) =
      s.syncPoints := by
    apply List.eraseP_of_forall_not
    intro sp hsp
    simpa using h sp hsp
  simp only [Scheduler.cancelCallback, Scheduler.removeSyncPoint, e]

theorem dispatchDue_split (limit : EmuTime) (q : List SyncPoint) (now : EmuTime)
    (log : List SyncPoint) :
    ∃ fired, (dispatchDue limit q now log).2.1 = log ++ fired ∧
      fired ++ (dispatchDue limit q now log).2.2 = q := by
  induction q generalizing now log with
  | nil => exact ⟨[], by simp [dispatchDue]⟩
  | cons sp rest ih =>
    simp only [dispatchDue]
    split
    · obtain ⟨fired, h1, h2⟩ := ih sp.time (log ++ [sp])
      refine ⟨sp :: fired, ?_, ?_⟩
      · rw [h1]; simp
      · simp [h2]
    · exact ⟨[], by simp⟩

/-- Whatever later `runUntil` calls dispatch was pending before them. -/
theorem runUntil_foldl_split (limits : List EmuTime) (s : Scheduler) :
    ∃ fired, (limits.foldl Scheduler.runUntil s).dispatched = s.dispatched ++ fired ∧
      fired ++ (limits.foldl Scheduler.runUntil s).syncPoints = s.syncPoints := by
  induction limits generalizing s with
  | nil => exact ⟨[], by simp⟩
  | cons l rest ih =>
    obtain ⟨f1, h1, h2⟩ := dispatchDue_split l s.syncPoints s.currentTime s.dispatched
    obtain ⟨f2, h3, h4⟩ := ih (s.runUntil l)
    refine ⟨f1 ++ f2, ?_, ?_⟩
    · rw [List.foldl_cons, h3]
      show (dispatchDue l s.syncPoints s.currentTime s.dispatched).2.1 ++ f2 = _
      rw [h1, List.append_assoc]
    · rw [List.foldl_cons, List.append_assoc, h4]
      exact h2

/-- After a cancellation fewer callbacks of the pair can be invoked than
SyncPoints were pending for it. -/
theorem cancelCallback_pending (s : Scheduler) (device userData : Nat)
    (h : ∃ sp ∈ s.syncPoints, sp.device = device ∧ sp.userData = userData)
    (limits : List EmuTime) :
    ∃ fired,
      (limits.foldl Scheduler.runUntil (s.cancelCallback device userData)).dispatched =
        s.dispatched ++ fired ∧
      fired.countP (fun sp => sp.device == device && sp.userData == userData) <
        s.syncPoints.countP (fun sp => sp.device == device && sp.userData == userData) := by
  obtain ⟨fired, h1, h2⟩ := runUntil_foldl_split limits (s.cancelCallback device userData)
  refine ⟨fired, h1, ?_⟩
  obtain ⟨sp, hsp, hd, hu⟩ := h
  have hp : (fun sp : SyncPoint => sp.device == device && sp.userData == userData) sp = true := by
    simp [hd, hu]
  have hpos : 0 < s.syncPoints.countP
      (fun sp => sp.device == device && sp.userData == userData) :=
    List.countP_pos_iff.mpr ⟨sp, hsp, hp⟩
  have hle : fired.countP (fun sp => sp.device == device && sp.userData == userData) ≤
      (s.cancelCallback device userData).syncPoints.countP
        (fun sp => sp.device == device && sp.userData == userData) := by
    rw [← h2, List.countP_append]
    exact Nat.le_add_right _ _
  have hera : (s.cancelCallback device userData).syncPoints.countP
      (fun sp => sp.device == device && sp.userData == userData) =
      s.syncPoints.countP (fun sp => sp.device == device && sp.userData == userData) - 1 := by
    show (s.syncPoints.eraseP _).countP _ = _
    obtain ⟨a, l1, l2, hno, ha, e1, e2⟩ := List.exists_of_eraseP
      (p := fun sp : SyncPoint => sp.device == device && sp.userData == userData) hsp hp
    rw [e2, e1]
    simp only [List.countP_append, List.countP_cons, ha]
    simp
  omega


theorem writeIO_INTERRUPT_FLAG (T : V9990DisplayTiming) (s : V9990) (val : byte)
    (time : EmuTime) :
    writeIO T s INTERRUPT_FLAG val time =
      scheduleHscan T
        (if (s.pendingIRQs &&& (val ^^^ 0xFF)) &&& s.regs INTERRUPT_0 = 0 then
          { s with pendingIRQs := s.pendingIRQs &&& (val ^^^ 0xFF), irq := false }
         else { s with pendingIRQs := s.pendingIRQs &&& (val ^^^ 0xFF) }) time := by
  rfl

theorem calcDisplayMode_frame (s : V9990) :
    (calcDisplayMode s).calls = s.calls ∧ (calcDisplayMode s).scheduler = s.scheduler ∧
    (calcDisplayMode s).pendingIRQs = s.pendingIRQs ∧
    (calcDisplayMode s).hScanSyncTime = s.hScanSyncTime := by
  simp only [calcDisplayMode, setHorizontalTiming]
  split <;> simp

theorem setVerticalTiming_frame (s : V9990) :
    (setVerticalTiming s).calls = s.calls ∧ (setVerticalTiming s).scheduler = s.scheduler := by
  simp only [setVerticalTiming]
  split <;> simp

/-- What `scheduleHscan` does to the Scheduler and to the call log. -/
theorem scheduleHscan_effects (T : V9990DisplayTiming) (s : V9990) (time : EmuTime) :
    let q := if s.hScanSyncTime > time then
        (s.scheduler.removeSyncPoint deviceId V9990SyncType.V9990_HSCAN.toNat) else s.scheduler
    let c := if s.hScanSyncTime > time then
        s.calls ++ [Call.removeSyncPoint .V9990_HSCAN] else s.calls
    if s.pendingIRQs &&& HOR_IRQ ≠ 0 then
      (scheduleHscan T s time).scheduler = q ∧ (scheduleHscan T s time).calls = c
    else
      (scheduleHscan T s time).scheduler =
        q.setSyncPoint (scheduleHscan T s time).hScanSyncTime deviceId
          V9990SyncType.V9990_HSCAN.toNat ∧
      (scheduleHscan T s time).calls =
        c ++ [Call.setSyncPoint (scheduleHscan T s time).hScanSyncTime .V9990_HSCAN] := by
  intro q c
  by_cases h1 : s.hScanSyncTime > time <;> by_cases h2 : s.pendingIRQs &&& HOR_IRQ ≠ 0
  · have h2' : (removeSyncPoint s .V9990_HSCAN).pendingIRQs &&& HOR_IRQ ≠ 0 := h2
    simp only [q, c, scheduleHscan, if_pos h1, if_pos h2, if_pos h2']
    exact ⟨rfl, rfl⟩
  · have h2' : ¬ (removeSyncPoint s .V9990_HSCAN).pendingIRQs &&& HOR_IRQ ≠ 0 := h2
    simp only [q, c, scheduleHscan, if_pos h1, if_neg h2, if_neg h2']
    exact ⟨rfl, rfl⟩
  · simp only [q, c, scheduleHscan, if_neg h1, if_pos h2]
    exact ⟨trivial, trivial⟩
  · simp only [q, c, scheduleHscan, if_neg h1, if_neg h2]
    exact ⟨rfl, rfl⟩


/-- What `frameStart` does to the Scheduler and to the call log: it registers
the VSYNC, DISPLAY_START and VSCAN SyncPoints of the new frame and cancels
nothing. -/
theorem frameStart_effects (T : V9990DisplayTiming) (s : V9990) (time : EmuTime) :
    let F := frameStart T s time
    let vt := getVerticalTiming T F
    let t1 := F.frameStartTime.plus T.masterTicks (T.getUCTicksPerFrame F.palTiming)
    let t2 := F.frameStartTime.plus T.masterTicks ((vt.blank + vt.border1) * T.UC_TICKS_PER_LINE)
    let t3 := F.frameStartTime.plus T.masterTicks
      ((vt.blank + vt.border1 + vt.display) * T.UC_TICKS_PER_LINE)
    F.scheduler =
        ((s.scheduler.setSyncPoint t1 deviceId V9990SyncType.V9990_VSYNC.toNat).setSyncPoint
          t2 deviceId V9990SyncType.V9990_DISPLAY_START.toNat).setSyncPoint
          t3 deviceId V9990SyncType.V9990_VSCAN.toNat ∧
    F.calls =
        s.calls ++ [Call.setSyncPoint t1 .V9990_VSYNC, Call.setSyncPoint t2 .V9990_DISPLAY_START,
          Call.setSyncPoint t3 .V9990_VSCAN, Call.frameStart time] := by
  have hv := setVerticalTiming_frame
    { s with palTiming := (s.regs SCREEN_MODE_1 &&& 0x08 ≠ 0 : Bool) }
  intro F vt t1 t2 t3
  constructor
  · simp only [F, vt, t1, t2, t3, frameStart, setSyncPoint, call, hv.2]
    rfl
  · simp only [F, vt, t1, t2, t3, frameStart, setSyncPoint, call, hv.1, List.append_assoc,
      List.singleton_append, List.cons_append, List.nil_append]
    rfl

theorem removeSyncPoint_absent (s : Scheduler) (userData : Nat)
    (h : ∀ sp ∈ s.syncPoints, sp.device ≠ deviceId) :
    s.removeSyncPoint deviceId userData = s := by
  apply cancelCallback_absent
  intro sp hsp hp
  exact h sp hsp hp.1

/-- What `reset` does to the Scheduler: it issues the six cancellations
whatever is pending, and when no SyncPoint of the V9990 is pending they change
nothing and the four SyncPoints of the new frame are registered. -/
theorem reset_effects (T : V9990DisplayTiming) (s : V9990) (time : EmuTime) :
    (∃ rest, (reset T s time).calls = s.calls ++ resetCancels ++ rest) ∧
    ((∀ sp ∈ s.scheduler.syncPoints, sp.device ≠ deviceId) →
      ∃ t0 t1 t2 t3 : EmuTime, (reset T s time).scheduler.syncPoints =
        insertSyncPoint ⟨t3, deviceId, 2⟩ (insertSyncPoint ⟨t2, deviceId, 1⟩
          (insertSyncPoint ⟨t1, deviceId, 0⟩
            (insertSyncPoint ⟨t0, deviceId, 3⟩ s.scheduler.syncPoints)))) := by
  -- the state after the six cancellations
  obtain ⟨a, ha⟩ : ∃ a : V9990, a = removeSyncPoint (removeSyncPoint (removeSyncPoint
      (removeSyncPoint (removeSyncPoint (removeSyncPoint s .V9990_VSYNC) .V9990_DISPLAY_START)
        .V9990_VSCAN) .V9990_HSCAN) .V9990_SET_MODE) .V9990_SET_BLANK := ⟨_, rfl⟩
  have hac : a.calls = s.calls ++ resetCancels := by
    rw [ha]; simp [removeSyncPoint, resetCancels]
  -- the state handed to `scheduleHscan` by `writeIO(INTERRUPT_FLAG, 0xFF)`
  obtain ⟨c, hc⟩ : ∃ c : V9990, c = calcDisplayMode
      { a with regs := fun _ => 0, status := 0, regSelect := 0xFF } := ⟨_, rfl⟩
  obtain ⟨hc1, hc2, hc3, hc4⟩ := calcDisplayMode_frame
      { a with regs := fun _ => 0, status := 0, regSelect := 0xFF }
  rw [← hc] at hc1 hc2 hc3 hc4
  obtain ⟨d, hd⟩ : ∃ d : V9990, d =
      (if (c.pendingIRQs &&& (0xFF ^^^ 0xFF)) &&& c.regs INTERRUPT_0 = 0 then
          { c with isDisplayArea := false, displayEnabled := false,
                   pendingIRQs := c.pendingIRQs &&& (0xFF ^^^ 0xFF), irq := false }
         else { c with isDisplayArea := false, displayEnabled := false,
                       pendingIRQs := c.pendingIRQs &&& (0xFF ^^^ 0xFF) }) := ⟨_, rfl⟩
  have hd1 : d.calls = c.calls := by rw [hd]; split <;> rfl
  have hd2 : d.scheduler = c.scheduler := by rw [hd]; split <;> rfl
  have hd3 : d.pendingIRQs = 0 := by
    have : d.pendingIRQs = c.pendingIRQs &&& (0xFF ^^^ 0xFF) := by rw [hd]; split <;> rfl
    rw [this]
    exact Nat.and_zero _
  obtain ⟨e, he⟩ : ∃ e : V9990, e = scheduleHscan T d time := ⟨_, rfl⟩
  have hR : reset T s time =
      frameStart T (call (call { e with palTiming := false } (.rendererReset time))
        (.cmdEngineReset time)) time := by
    rw [he, hd, hc, ha]
    rfl
  have hS := scheduleHscan_effects T d time
  have hno : ¬ (d.pendingIRQs &&& HOR_IRQ ≠ 0) := by rw [hd3]; decide
  simp only [if_neg hno] at hS
  rw [← he] at hS
  obtain ⟨hS1, hS2⟩ := hS
  have hF := frameStart_effects T (call (call { e with palTiming := false }
    (.rendererReset time)) (.cmdEngineReset time)) time
  simp only [] at hF
  rw [← hR] at hF
  obtain ⟨hF1, hF2⟩ := hF
  constructor
  · have hpre : (s.calls ++ resetCancels) <+: (reset T s time).calls := by
      rw [hF2]
      simp only [call]
      rw [hS2, hd1, hc1, hac]
      refine List.IsPrefix.trans ?_ (List.prefix_append _ _)
      refine List.IsPrefix.trans ?_ (List.prefix_append _ _)
      refine List.IsPrefix.trans ?_ (List.prefix_append _ _)
      refine List.IsPrefix.trans ?_ (List.prefix_append _ _)
      split
      · exact List.prefix_append _ _
      · exact List.prefix_refl _
    obtain ⟨rest, hrest⟩ := hpre
    exact ⟨rest, hrest.symm⟩
  · intro hnone
    have has : a.scheduler = s.scheduler := by
      rw [ha]
      simp only [removeSyncPoint, removeSyncPoint_absent _ _ hnone]
    have hq : (if d.hScanSyncTime > time then
        d.scheduler.removeSyncPoint deviceId V9990SyncType.V9990_HSCAN.toNat
        else d.scheduler) = s.scheduler := by
      rw [hd2, hc2, has]
      split
      · exact removeSyncPoint_absent _ _ hnone
      · rfl
    rw [hq] at hS1
    refine ⟨e.hScanSyncTime,
      (reset T s time).frameStartTime.plus T.masterTicks
        (T.getUCTicksPerFrame (reset T s time).palTiming),
      (reset T s time).frameStartTime.plus T.masterTicks
        (((getVerticalTiming T (reset T s time)).blank +
          (getVerticalTiming T (reset T s time)).border1) * T.UC_TICKS_PER_LINE),
      (reset T s time).frameStartTime.plus T.masterTicks
        (((getVerticalTiming T (reset T s time)).blank +
          (getVerticalTiming T (reset T s time)).border1 +
          (getVerticalTiming T (reset T s time)).display) * T.UC_TICKS_PER_LINE), ?_⟩
    rw [hF1]
    simp only [call, hS1]
    rfl



/-- C5: `cancelCallback` (`removeSyncPoint`) on a pair with no pending SyncPoint
leaves the Scheduler unchanged; on a pending one it removes it, so that
whatever `runUntil` calls follow, fewer callbacks of the pair are invoked than
SyncPoints were pending for it, and none at all when it was the only one.
`V9990::reset` issues its six cancellations in every state and
`V9990::scheduleHscan` cancels V9990_HSCAN whenever `hScanSyncTime > time`,
pending or not; when no SyncPoint of the V9990 is pending these cancellations
change nothing and the new SyncPoints are registered. -/
theorem cancelCallback_removeSyncPoint (s : Scheduler) (device userData : Nat)
    (T : V9990DisplayTiming) (v : V9990) (time : EmuTime) :
    ((∀ sp ∈ s.syncPoints, ¬ (sp.device = device ∧ sp.userData = userData)) →
      s.cancelCallback device userData = s) ∧
    ((∃ sp ∈ s.syncPoints, sp.device = device ∧ sp.userData = userData) →
      ∀ limits : List EmuTime, ∃ fired,
        (limits.foldl Scheduler.runUntil (s.cancelCallback device userData)).dispatched =
          s.dispatched ++ fired ∧
        fired.countP (fun sp => sp.device == device && sp.userData == userData) <
          s.syncPoints.countP (fun sp => sp.device == device && sp.userData == userData) ∧
        (s.syncPoints.countP (fun sp => sp.device == device && sp.userData == userData) = 1 →
          ∀ x ∈ fired, ¬ (x.device = device ∧ x.userData = userData))) ∧
    (∃ rest, (reset T v time).calls = v.calls ++ resetCancels ++ rest) ∧
    ((∀ sp ∈ v.scheduler.syncPoints, sp.device ≠ deviceId) →
      ∃ t0 t1 t2 t3 : EmuTime, (reset T v time).scheduler.syncPoints =
        insertSyncPoint ⟨t3, deviceId, 2⟩ (insertSyncPoint ⟨t2, deviceId, 1⟩
          (insertSyncPoint ⟨t1, deviceId, 0⟩
            (insertSyncPoint ⟨t0, deviceId, 3⟩ v.scheduler.syncPoints)))) ∧
    (v.hScanSyncTime > time →
      ∃ rest, (scheduleHscan T v time).calls =
        v.calls ++ [Call.removeSyncPoint .V9990_HSCAN] ++ rest) ∧
    (v.hScanSyncTime > time → (∀ sp ∈ v.scheduler.syncPoints, sp.device ≠ deviceId) →
      v.pendingIRQs &&& HOR_IRQ = 0 →
      (scheduleHscan T v time).scheduler.syncPoints =
        insertSyncPoint ⟨(scheduleHscan T v time).hScanSyncTime, deviceId, 3⟩
          v.scheduler.syncPoints) := by
  refine ⟨cancelCallback_absent s device userData, ?_, (reset_effects T v time).1,
    (reset_effects T v time).2, ?_, ?_⟩
  · intro hp limits
    obtain ⟨fired, h1, h2⟩ := cancelCallback_pending s device userData hp limits
    refine ⟨fired, h1, h2, ?_⟩
    intro hone x hx hpair
    have h0 : fired.countP (fun sp => sp.device == device && sp.userData == userData) = 0 := by
      omega
    rw [List.countP_eq_zero] at h0
    have := h0 x hx
    simp [hpair.1, hpair.2] at this
  · intro hgt
    have hS := scheduleHscan_effects T v time
    simp only [if_pos hgt] at hS
    split at hS
    · exact ⟨[], by rw [hS.2, List.append_nil]⟩
    · exact ⟨_, hS.2⟩
  · intro hgt hnone hirq
    have hS := scheduleHscan_effects T v time
    have hno : ¬ (v.pendingIRQs &&& HOR_IRQ ≠ 0) := by simpa using hirq
    simp only [if_pos hgt, if_neg hno, removeSyncPoint_absent _ _ hnone] at hS
    rw [hS.1]
    rfl

/-- C5 at work.  With A:1 pending at tick 5 and B:1 at tick 7, cancelling A:1
and running until 10 invokes B:1 only; cancelling the absent A:2 changes
nothing.  A V9990 constructed at time 0 and reset at time 10 cancels
V9990_HSCAN twice, first in `reset` and then in `scheduleHscan`, where nothing
is pending for it any more. -/
theorem cancelCallback_removeSyncPoint_witness :
    (Scheduler.runUntil (Scheduler.cancelCallback
        { currentTime := 0, syncPoints := [⟨5, 1, 1⟩, ⟨7, 2, 1⟩], dispatched := [] } 1 1)
      10).dispatched = [⟨7, 2, 1⟩] ∧
    Scheduler.cancelCallback
        { currentTime := 0, syncPoints := [⟨5, 1, 1⟩, ⟨7, 2, 1⟩], dispatched := [] } 1 2 =
      { currentTime := 0, syncPoints := [⟨5, 1, 1⟩, ⟨7, 2, 1⟩], dispatched := [] } ∧
    ((reset sampleTiming (create sampleTiming Scheduler.initial 0) 10).calls.drop 14).take 8 =
      resetCancels ++
        [Call.removeSyncPoint .V9990_HSCAN, Call.setSyncPoint 158688 .V9990_HSCAN] :=
  ⟨by decide,
   (cancelCallback_removeSyncPoint
      { currentTime := 0, syncPoints := [⟨5, 1, 1⟩, ⟨7, 2, 1⟩], dispatched := [] } 1 2
      sampleTiming (create sampleTiming Scheduler.initial 0) 10).1 (by decide),
   by decide⟩

open Rom16kBBlocks

/-! ## Rom16kBBlocks -/

theorem toUnsigned_natCast (n : Nat) (h : n < 4294967296) : toUnsigned (n : Int) = n := by
  unfold toUnsigned
  omega

theorem Rom.index_isSome (rom : Rom) (address : Nat) (h : address < rom.getSize) :
    ∃ v, rom.index address = some v ∧ rom.data[address]? = some v := by
  have h2 : address < rom.data.length := h
  refine ⟨rom.data[address], ?_, ?_⟩
  · simp only [Rom.index, if_pos h]
    exact List.getElem?_eq_getElem h2
  · exact List.getElem?_eq_getElem h2

/-- The block `setRom` selects and the window it maps: for a block number
`n ≥ 0` and a ROM of at least 16 kB the selected block is `n` when that is
below the number of blocks and `n & (nrBlocks - 1)` otherwise; it is below the
number of blocks and its window lies inside the ROM. -/
theorem setRom_selects (s : Rom16kBBlocks) (region : Nat) (n : Nat)
    (hsize : 0 < s.rom.getSize >>> 14) :
    ∃ k : Nat, k = (if n < s.rom.getSize >>> 14 then n else n &&& (s.rom.getSize >>> 14 - 1)) ∧
      k < s.rom.getSize >>> 14 ∧ k * 0x4000 + 0x3FFF < s.rom.getSize ∧
      setRom s region (n : Int) = some (setBank s region (.rom (k * 0x4000))) := by
  have hdiv : s.rom.getSize >>> 14 = s.rom.getSize / 16384 := Nat.shiftRight_eq_div_pow _ 14
  have hfit : s.rom.getSize < 4294967296 := s.rom.size_fits
  obtain ⟨k, hk, hkn, hblock⟩ : ∃ k : Nat, k < s.rom.getSize >>> 14 ∧
      k = (if n < s.rom.getSize >>> 14 then n else n &&& (s.rom.getSize >>> 14 - 1)) ∧
      (if (n : Int) < ((s.rom.getSize >>> 14 : Nat) : Int) then (n : Int)
        else Int.land (n : Int) (((s.rom.getSize >>> 14 : Nat) : Int) - 1)) = (k : Int) := by
    by_cases hn : n < s.rom.getSize >>> 14
    · refine ⟨n, hn, by rw [if_pos hn], ?_⟩
      rw [if_pos (by exact_mod_cast hn)]
    · refine ⟨n &&& (s.rom.getSize >>> 14 - 1), ?_, by rw [if_neg hn], ?_⟩
      · have := @Nat.and_le_right n (s.rom.getSize >>> 14 - 1)
        omega
      · rw [if_neg (by exact_mod_cast hn)]
        have e : ((s.rom.getSize >>> 14 : Nat) : Int) - (1 : Int) =
            (((s.rom.getSize >>> 14) - 1 : Nat) : Int) := by omega
        rw [e]
        rfl
  have hwin : k * 0x4000 + 0x3FFF < s.rom.getSize := by
    rw [hdiv] at hk
    omega
  refine ⟨k, hkn, hk, hwin, ?_⟩
  have hne : ((s.rom.getSize >>> 14 : Nat) : Int) ≠ 0 := by omega
  have hu : toUnsigned ((k : Int) * 0x4000) = k * 0x4000 := by
    have : ((k : Int) * 0x4000) = ((k * 0x4000 : Nat) : Int) := by push_cast; ring
    rw [this]
    exact toUnsigned_natCast _ (by omega)
  obtain ⟨v, hv, -⟩ := Rom.index_isSome s.rom (k * 0x4000) (by omega)
  simp only [setRom, if_pos hne, hblock, hu, hv]

/-- C8: for a ROM with at least one 16 kB block, a block number `b` with
`0 <= b < (size >> 14)` and an address `a` of region `r` (`(a >> 14) == r`),
`setRom(r, b)` succeeds and afterwards `readMem(a)` returns
`rom[b * 0x4000 + (a & 0x3FFF)]`. -/
theorem setRom_readMem (s : Rom16kBBlocks) (r : Nat) (b : Int) (a : Nat)
    (hb0 : 0 ≤ b) (hb : b < ((s.rom.getSize >>> 14 : Nat) : Int)) (har : a >>> 14 = r) :
    ∃ s1 v, setRom s r b = some s1 ∧
      s.rom.index (b.toNat * 0x4000 + (a &&& 0x3FFF)) = some v ∧
      readMem s1 a = some v := by
  obtain ⟨n, rfl⟩ := Int.eq_ofNat_of_zero_le hb0
  have hn : n < s.rom.getSize >>> 14 := by exact_mod_cast hb
  obtain ⟨k, hkn, -, hwin, hset⟩ := setRom_selects s r n (by omega)
  rw [if_pos hn] at hkn
  subst hkn
  have hmod : a &&& 0x3FFF = a % 16384 := Nat.and_pow_two_sub_one_eq_mod a 14
  obtain ⟨v, hv, hv2⟩ := Rom.index_isSome s.rom (k * 0x4000 + (a &&& 0x3FFF)) (by omega)
  refine ⟨_, v, hset, ?_, ?_⟩
  · simpa using hv
  · simp only [readMem, setBank, har, if_true]
    exact hv2


/-- One `setRom` with a block number that is not negative: the assertion of
`Rom::operator[]` holds and the bank points to the unmapped page (ROM below
16 kB) or to a whole 16 kB block inside the ROM. -/
theorem setRom_step (s : Rom16kBBlocks) (region : Nat) (b : Int) (hb : 0 ≤ b) :
    ∃ s1, setRom s region b = some s1 ∧ s1.rom = s.rom ∧
      (∀ r, r ≠ region → s1.bank r = s.bank r) ∧
      ((s.rom.getSize < 0x4000 ∧ s1.bank region = .unmappedRead) ∨
        ∃ k : Nat, k < s.rom.getSize >>> 14 ∧ s1.bank region = .rom (k * 0x4000) ∧
          k * 0x4000 + 0x3FFF < s.rom.getSize) := by
  obtain ⟨n, rfl⟩ := Int.eq_ofNat_of_zero_le hb
  have hdiv : s.rom.getSize >>> 14 = s.rom.getSize / 16384 := Nat.shiftRight_eq_div_pow _ 14
  by_cases h0 : s.rom.getSize >>> 14 = 0
  · have hz : ¬ ((s.rom.getSize >>> 14 : Nat) : Int) ≠ 0 := by omega
    refine ⟨setBank s region .unmappedRead, ?_, rfl, ?_, Or.inl ⟨by omega, ?_⟩⟩
    · simp only [setRom, if_neg hz]
    · intro r hr
      simp only [setBank, if_neg hr]
    · simp only [setBank, if_true]
  · obtain ⟨k, -, hk, hwin, hset⟩ := setRom_selects s region n (by omega)
    refine ⟨_, hset, rfl, ?_, Or.inr ⟨k, hk, ?_, hwin⟩⟩
    · intro r hr
      simp only [setBank, if_neg hr]
    · simp only [setBank, if_true]

/-- Every bank pointer into the ROM has a whole 16 kB window inside it. -/
theorem setRom_keeps_windows (s : Rom16kBBlocks) (region : Nat) (b : Int) (hb : 0 ≤ b)
    (hinv : ∀ r off, s.bank r = .rom off →
      ∃ k : Nat, k < s.rom.getSize >>> 14 ∧ off = k * 0x4000 ∧ off + 0x3FFF < s.rom.getSize) :
    ∃ s1, setRom s region b = some s1 ∧ s1.rom = s.rom ∧
      ∀ r off, s1.bank r = .rom off →
        ∃ k : Nat, k < s1.rom.getSize >>> 14 ∧ off = k * 0x4000 ∧
          off + 0x3FFF < s1.rom.getSize := by
  obtain ⟨s1, h1, h2, h3, h4⟩ := setRom_step s region b hb
  refine ⟨s1, h1, h2, ?_⟩
  intro r off hoff
  rw [h2]
  by_cases hr : r = region
  · subst hr
    rcases h4 with ⟨-, hu⟩ | ⟨k, hk, hkb, hwin⟩
    · rw [hu] at hoff
      exact absurd hoff (by simp)
    · rw [hkb] at hoff
      have e : k * 0x4000 = off := by simpa using hoff
      exact ⟨k, hk, e.symm, by omega⟩
  · rw [h3 r hr] at hoff
    exact hinv r off hoff

theorem setRoms_keeps_windows (ops : List (Nat × Int)) (s : Rom16kBBlocks)
    (hops : ∀ op ∈ ops, 0 ≤ op.2)
    (hinv : ∀ r off, s.bank r = .rom off →
      ∃ k : Nat, k < s.rom.getSize >>> 14 ∧ off = k * 0x4000 ∧ off + 0x3FFF < s.rom.getSize) :
    ∃ s1, setRoms s ops = some s1 ∧ s1.rom = s.rom ∧
      ∀ r off, s1.bank r = .rom off →
        ∃ k : Nat, k < s1.rom.getSize >>> 14 ∧ off = k * 0x4000 ∧
          off + 0x3FFF < s1.rom.getSize := by
  induction ops generalizing s with
  | nil => exact ⟨s, rfl, rfl, hinv⟩
  | cons op rest ih =>
    obtain ⟨region, b⟩ := op
    obtain ⟨s1, h1, h2, h3⟩ := setRom_keeps_windows s region b
      (hops (region, b) (List.mem_cons_self _ _)) hinv
    obtain ⟨s2, h4, h5, h6⟩ := ih s1 (fun op hop => hops op (List.mem_cons_of_mem _ hop)) h3
    refine ⟨s2, ?_, h5.trans h2, h6⟩
    simp only [setRoms, h1, h4]

theorem readMem_inside (s : Rom16kBBlocks)
    (hinv : ∀ r off, s.bank r = .rom off →
      ∃ k : Nat, k < s.rom.getSize >>> 14 ∧ off = k * 0x4000 ∧ off + 0x3FFF < s.rom.getSize)
    (a : Nat) :
    ∃ v, readMem s a = some v := by
  unfold readMem
  cases hb : s.bank (a >>> 14) with
  | unmappedRead => exact ⟨0xFF, rfl⟩
  | rom off =>
    obtain ⟨k, -, -, hwin⟩ := hinv _ off hb
    have hmod : a &&& 0x3FFF = a % 16384 := Nat.and_pow_two_sub_one_eq_mod a 14
    obtain ⟨v, -, hv⟩ := Rom.index_isSome s.rom (off + (a &&& 0x3FFF)) (by omega)
    exact ⟨v, hv⟩

/-- C9: for every ROM size, the constructor and every later sequence of
`setRom(region, b)` calls with `b >= 0` pass the assertion `address < size` of
`Rom::operator[]`; afterwards every bank points to the unmapped-read page or
to block `k < (size >> 14)`, whose window `[k * 0x4000, k * 0x4000 + 0x3FFF]`
lies inside the ROM, and every `readMem` reads inside the ROM or the unmapped
page.  A single `setRom` does so in any state, mapping the unmapped page
exactly when the ROM is below 16 kB. -/
theorem setRom_inside_rom (rom : Rom) (ops : List (Nat × Int)) (s : Rom16kBBlocks)
    (region : Nat) (b : Int) (hops : ∀ op ∈ ops, 0 ≤ op.2) (hb : 0 ≤ b) :
    (∃ s1, (create rom).bind (fun s0 => setRoms s0 ops) = some s1 ∧ s1.rom = rom ∧
      (∀ r, s1.bank r = .unmappedRead ∨
        ∃ k : Nat, k < rom.getSize >>> 14 ∧ s1.bank r = .rom (k * 0x4000) ∧
          k * 0x4000 + 0x3FFF < rom.getSize) ∧
      (∀ a, ∃ v, readMem s1 a = some v)) ∧
    (∃ s1, setRom s region b = some s1 ∧
      ((s.rom.getSize < 0x4000 ∧ s1.bank region = .unmappedRead) ∨
        ∃ k : Nat, k < s.rom.getSize >>> 14 ∧ s1.bank region = .rom (k * 0x4000) ∧
          k * 0x4000 + 0x3FFF < s.rom.getSize) ∧
      (∀ a, a >>> 14 = region → ∃ v, readMem s1 a = some v)) := by
  constructor
  · obtain ⟨s0, h1, h2, h3⟩ := setRoms_keeps_windows [(0, 0), (1, 0), (2, 0), (3, 0)]
      { rom := rom, bank := fun _ => .unmappedRead, invalidated := [] }
      (by decide) (by intro r off h; exact absurd h (by simp))
    obtain ⟨s1, h4, h5, h6⟩ := setRoms_keeps_windows ops s0 hops h3
    have hrom : s1.rom = rom := h5.trans h2
    refine ⟨s1, ?_, hrom, ?_, readMem_inside s1 h6⟩
    · show (setRoms _ _).bind _ = _
      rw [h1]
      exact h4
    · intro r
      cases hbank : s1.bank r with
      | unmappedRead => exact Or.inl rfl
      | rom off =>
        obtain ⟨k, hk, hoff, hwin⟩ := h6 r off hbank
        rw [hrom] at hk hwin
        exact Or.inr ⟨k, hk, by rw [hoff], by omega⟩
  · obtain ⟨s1, h1, h2, h3, h4⟩ := setRom_step s region b hb
    refine ⟨s1, h1, h4, ?_⟩
    intro a ha
    unfold readMem
    rw [ha]
    rcases h4 with ⟨-, hu⟩ | ⟨k, hk, hkb, hwin⟩
    · rw [hu]; exact ⟨0xFF, rfl⟩
    · rw [hkb]
      have hmod : a &&& 0x3FFF = a % 16384 := Nat.and_pow_two_sub_one_eq_mod a 14
      obtain ⟨v, -, hv⟩ := Rom.index_isSome s1.rom (k * 0x4000 + (a &&& 0x3FFF))
        (by rw [h2]; omega)
      exact ⟨v, hv⟩


theorem sampleRom_getSize : sampleBlocks.rom.getSize = 49152 := by
  simp only [sampleBlocks, sampleRom, Rom.getSize, List.length_map, List.length_range]

/-- C8 at work: on the 48 kB sample ROM, after `setRom(1, 2)` a read at 0x4005
returns the byte at offset `2 * 0x4000 + 5`. -/
theorem setRom_readMem_witness :
    ∃ s1 v, setRom sampleBlocks 1 2 = some s1 ∧
      sampleBlocks.rom.index ((2 : Int).toNat * 0x4000 + (0x4005 &&& 0x3FFF)) = some v ∧
      readMem s1 0x4005 = some v :=
  setRom_readMem sampleBlocks 1 2 0x4005 (by decide)
    (by rw [sampleRom_getSize]; decide) (by decide)

/-- C9 at work: on the 48 kB sample ROM (three blocks) the constructor followed
by `setRom(1, 7)` and `setRom(2, 1)` passes every assertion and every read
stays inside the ROM; `setRom(1, 7)` selects block `7 & 2 = 2`. -/
theorem setRom_inside_rom_witness :
    (∃ s1, (create sampleBlocks.rom).bind (fun s0 => setRoms s0 [(1, 7), (2, 1)]) = some s1 ∧
      ∀ a, ∃ v, readMem s1 a = some v) ∧
    (∃ s1, setRom sampleBlocks 1 7 = some s1 ∧ s1.bank 1 = .rom 0x8000) := by
  obtain ⟨⟨s1, h1, -, -, h2⟩, s2, h3, -, -⟩ := setRom_inside_rom sampleBlocks.rom
    [(1, 7), (2, 1)] sampleBlocks 1 7 (by decide) (by decide)
  refine ⟨⟨s1, h1, h2⟩, s2, h3, ?_⟩
  obtain ⟨k, hk, -, -, hset⟩ := setRom_selects sampleBlocks 1 7
    (by rw [sampleRom_getSize]; decide)
  rw [sampleRom_getSize] at hk
  have hk2 : k = 2 := by rw [hk]; decide
  have h4 : setRom sampleBlocks 1 7 = some (setBank sampleBlocks 1 (.rom (k * 0x4000))) := hset
  rw [Option.some.inj (h3.symm.trans h4), hk2]
  rfl


/-! ## MSX-AUDIO -/

theorem MSXAudio.enableDAC_frame {σ : Type} (s : MSXAudio σ) (enable : Bool) (time : EmuTime) :
    (MSXAudio.enableDAC s enable time).registerLatch = s.registerLatch ∧
    (MSXAudio.enableDAC s enable time).dacValue = s.dacValue ∧
    MSXAudio.y8950Writes (MSXAudio.enableDAC s enable time) = MSXAudio.y8950Writes s := by
  simp only [MSXAudio.enableDAC]
  split
  · split
    · simp [MSXAudio.y8950Writes, List.filterMap_append]
    · exact ⟨rfl, rfl, rfl⟩
  · exact ⟨rfl, rfl, rfl⟩

/-- A `write` of the periphery leaves the latch and the DAC value alone and
issues no register write to the Y8950. -/
theorem MSXAudio.peripheryWrite_frame {σ : Type} (Y : Y8950Model σ) (s : MSXAudio σ)
    (outputs values : Nat) (time : EmuTime) :
    (MSXAudio.peripheryWrite Y s outputs values time).registerLatch = s.registerLatch ∧
    (MSXAudio.peripheryWrite Y s outputs values time).dacValue = s.dacValue ∧
    MSXAudio.y8950Writes (MSXAudio.peripheryWrite Y s outputs values time) =
      MSXAudio.y8950Writes s := by
  simp only [MSXAudio.peripheryWrite]
  split
  · refine ⟨((MSXAudio.enableDAC_frame _ _ _).1).trans rfl,
      ((MSXAudio.enableDAC_frame _ _ _).2.1).trans rfl,
      ((MSXAudio.enableDAC_frame _ _ _).2.2).trans ?_⟩
    simp [MSXAudio.y8950Writes, List.filterMap_append]
  · exact ⟨rfl, rfl, rfl⟩
  · exact ⟨rfl, rfl, rfl⟩

theorem MSXAudio.peripheryWrites_frame {σ : Type} (Y : Y8950Model σ) (ws : List (Nat × Nat))
    (s : MSXAudio σ) (time : EmuTime) :
    (ws.foldl (fun st w => MSXAudio.peripheryWrite Y st w.1 w.2 time) s).registerLatch =
      s.registerLatch ∧
    (ws.foldl (fun st w => MSXAudio.peripheryWrite Y st w.1 w.2 time) s).dacValue = s.dacValue ∧
    MSXAudio.y8950Writes (ws.foldl (fun st w => MSXAudio.peripheryWrite Y st w.1 w.2 time) s) =
      MSXAudio.y8950Writes s := by
  induction ws generalizing s with
  | nil => exact ⟨rfl, rfl, rfl⟩
  | cons w rest ih =>
    obtain ⟨h1, h2, h3⟩ := ih (MSXAudio.peripheryWrite Y s w.1 w.2 time)
    obtain ⟨g1, g2, g3⟩ := MSXAudio.peripheryWrite_frame Y s w.1 w.2 time
    exact ⟨h1.trans g1, h2.trans g2, h3.trans g3⟩

/-- C10: `MSXAudio::writeIO` decodes the port.  If `(port & 0xFF) == 0x0A`,
`dacValue` becomes `value`, `registerLatch` is unchanged and no Y8950 register
is written.  Otherwise, if the port is even, `registerLatch` becomes `value`
and nothing else changes.  Otherwise exactly one Y8950 register write
`(registerLatch, value)` is issued and `registerLatch` and `dacValue` are
unchanged. -/
theorem MSXAudio.writeIO_decodes {σ : Type} (Y : Y8950Model σ) (s : MSXAudio σ) (port : Nat)
    (value : byte) (time : EmuTime) :
    (port &&& 0xFF = 0x0A →
      ( MSXAudio.writeIO Y s port value time).dacValue = value ∧
      ( MSXAudio.writeIO Y s port value time).registerLatch = s.registerLatch ∧
      ( MSXAudio.writeIO Y s port value time).y8950 = s.y8950 ∧
      MSXAudio.y8950Writes ( MSXAudio.writeIO Y s port value time) = MSXAudio.y8950Writes s) ∧
    (port &&& 0xFF ≠ 0x0A → port &&& 0x01 = 0 →
      MSXAudio.writeIO Y s port value time = { s with registerLatch := value }) ∧
    (port &&& 0xFF ≠ 0x0A → port &&& 0x01 ≠ 0 →
      MSXAudio.y8950Writes ( MSXAudio.writeIO Y s port value time) =
        MSXAudio.y8950Writes s ++ [(s.registerLatch, value)] ∧
      ( MSXAudio.writeIO Y s port value time).registerLatch = s.registerLatch ∧
      ( MSXAudio.writeIO Y s port value time).dacValue = s.dacValue) := by
  refine ⟨?_, ?_, ?_⟩
  · intro h
    simp only [ MSXAudio.writeIO, if_pos h]
    split
    · simp [MSXAudio.y8950Writes, List.filterMap_append]
    · exact ⟨rfl, rfl, rfl, rfl⟩
  · intro h1 h2
    simp only [ MSXAudio.writeIO, if_neg h1, if_pos h2]
  · intro h1 h2
    simp only [ MSXAudio.writeIO, if_neg h1, if_neg h2]
    obtain ⟨g1, g2, g3⟩ := MSXAudio.peripheryWrites_frame Y
      (Y.writeReg s.y8950 s.registerLatch value time).2
      { s with y8950 := (Y.writeReg s.y8950 s.registerLatch value time).1,
               calls := s.calls ++ [.writeReg s.registerLatch value time] } time
    refine ⟨g3.trans ?_, g1, g2⟩
    simp [MSXAudio.y8950Writes, List.filterMap_append]

/-- C10 at work on a Philips Music Module: port 0xC0 sets the latch, port 0xC1
writes the latched register once, port 0x0A sets the DAC value. -/
theorem MSXAudio.writeIO_decodes_witness :
    ( MSXAudio.writeIO sampleY8950 sampleAudio 0xC0 0x18 5).registerLatch = 0x18 ∧
    MSXAudio.y8950Writes
      ( MSXAudio.writeIO sampleY8950 ( MSXAudio.writeIO sampleY8950 sampleAudio 0xC0 0x18 5)
        0xC1 0x0F 6) = [(0x18, 0x0F)] ∧
    ( MSXAudio.writeIO sampleY8950 sampleAudio 0x0A 0x42 5).dacValue = 0x42 :=
  ⟨by decide, by decide,
   ((MSXAudio.writeIO_decodes sampleY8950 sampleAudio 0x0A 0x42 5).1 (by decide)).1⟩

open RomDatabase

/-! ## ROM database -/

theorem RomDatabase.loadFiles_init (nameToRomType : String → RomType) (files : List DBFile)
    (st : RomDatabaseStatics) :
    (files.foldl (loadFile nameToRomType) st).init = st.init := by
  induction files generalizing st with
  | nil => rfl
  | cons f rest ih =>
    rw [List.foldl_cons, ih]
    cases f <;> rfl

/-- After `initDatabase` the flag `init` is set, whatever the state before. -/
theorem RomDatabase.initDatabase_init (nameToRomType : String → RomType) (files : List DBFile)
    (st : RomDatabaseStatics) :
    (initDatabase nameToRomType files st).init = true := by
  unfold initDatabase
  by_cases h : st.init = true
  · rw [if_pos h]; exact h
  · rw [if_neg h]
    have h2 := RomDatabase.loadFiles_init nameToRomType files { st with init := true }
    simp only []
    split <;> split <;> simpa using h2

/-- C7: `initDatabase` is a lazy one-time initialisation.  The first call (flag
`init` not set) loads the database files into the SHA1 map and the tally;
after any call the flag is set, and every later call, also with other files
and also from the constructor of another `RomDatabase`, returns the state
unchanged: `initDatabase` is idempotent. -/
theorem RomDatabase.initDatabase_idempotent (nameToRomType : String → RomType)
    (files files2 : List DBFile) (st : RomDatabaseStatics) :
    (st.init = false →
      (initDatabase nameToRomType files st).romDBSHA1 =
        (files.foldl (loadFile nameToRomType) { st with init := true }).romDBSHA1 ∧
      (initDatabase nameToRomType files st).unknownTypes =
        (files.foldl (loadFile nameToRomType) { st with init := true }).unknownTypes) ∧
    (initDatabase nameToRomType files st).init = true ∧
    initDatabase nameToRomType files2 (initDatabase nameToRomType files st) =
      initDatabase nameToRomType files st ∧
    RomDatabase.create nameToRomType files2 (RomDatabase.create nameToRomType files st) =
      RomDatabase.create nameToRomType files st := by
  have hinit := RomDatabase.initDatabase_init nameToRomType files st
  have hid : initDatabase nameToRomType files2 (initDatabase nameToRomType files st) =
      initDatabase nameToRomType files st := by
    generalize initDatabase nameToRomType files st = st1 at hinit
    simp only [initDatabase, hinit, if_true]
  refine ⟨?_, hinit, hid, hid⟩
  intro h
  have hn : ¬ st.init = true := by rw [h]; decide
  simp only [initDatabase, if_neg hn]
  split <;> split <;> exact ⟨rfl, rfl⟩

/-- C7 at work: loading the two sample files stores two entries and tallies
one unknown mapper type, and a second `initDatabase` with no file at all
changes nothing. -/
theorem RomDatabase.initDatabase_idempotent_witness :
    (initDatabase sampleNameToRomType sampleFiles initialStatics).romDBSHA1.length = 2 ∧
    (initDatabase sampleNameToRomType sampleFiles initialStatics).unknownTypes =
      [("Strange", 1)] ∧
    initDatabase sampleNameToRomType []
        (initDatabase sampleNameToRomType sampleFiles initialStatics) =
      initDatabase sampleNameToRomType sampleFiles initialStatics :=
  ⟨by decide, by decide,
   (RomDatabase.initDatabase_idempotent sampleNameToRomType sampleFiles [] initialStatics).2.2.1⟩


/-- C11: for a port with `(port & 0xFF) == 0x0A` both `readIO` and `peekIO`
return 255.  For every other port both select the Y8950 data register at
`registerLatch` when the port is odd and the Y8950 status when it is even.
`readIO` leaves `registerLatch`, `dacValue` and `dacEnabled` as they were
(`peekIO` is a `const` method and returns a value only). -/
theorem MSXAudio.readIO_peekIO_decode {σ : Type} (Y : Y8950Model σ) (s : MSXAudio σ)
    (port : Nat) (time : EmuTime) :
    (port &&& 0xFF = 0x0A →
      ( MSXAudio.readIO Y s port time).2 = 255 ∧ MSXAudio.peekIO Y s port time = 255 ∧
      ( MSXAudio.readIO Y s port time).1 = s) ∧
    (port &&& 0xFF ≠ 0x0A → port &&& 1 ≠ 0 →
      ( MSXAudio.readIO Y s port time).2 = (Y.readReg s.y8950 s.registerLatch time).2 ∧
      ( MSXAudio.readIO Y s port time).1.calls = s.calls ++ [.readReg s.registerLatch time] ∧
      MSXAudio.peekIO Y s port time = Y.peekReg s.y8950 s.registerLatch time) ∧
    (port &&& 0xFF ≠ 0x0A → port &&& 1 = 0 →
      ( MSXAudio.readIO Y s port time).2 = (Y.readStatus s.y8950).2 ∧
      ( MSXAudio.readIO Y s port time).1.calls = s.calls ++ [.readStatus] ∧
      MSXAudio.peekIO Y s port time = Y.peekStatus s.y8950) ∧
    ( MSXAudio.readIO Y s port time).1.registerLatch = s.registerLatch ∧
    ( MSXAudio.readIO Y s port time).1.dacValue = s.dacValue ∧
    ( MSXAudio.readIO Y s port time).1.dacEnabled = s.dacEnabled := by
  refine ⟨?_, ?_, ?_, ?_⟩
  · intro h
    refine ⟨?_, ?_, ?_⟩ <;> simp only [ MSXAudio.readIO, MSXAudio.peekIO, if_pos h]
  · intro h1 h2
    refine ⟨?_, ?_, ?_⟩ <;>
      simp only [ MSXAudio.readIO, MSXAudio.peekIO, if_neg h1, if_pos h2]
  · intro h1 h2
    have h3 : ¬ (port &&& 1 ≠ 0) := by simpa using h2
    refine ⟨?_, ?_, ?_⟩ <;>
      simp only [ MSXAudio.readIO, MSXAudio.peekIO, if_neg h1, if_neg h3]
  · simp only [ MSXAudio.readIO]
    split
    · exact ⟨rfl, rfl, rfl⟩
    · split <;> exact ⟨rfl, rfl, rfl⟩

/-- C11 at work on the sample Music Module with register 0 set to 7 and the
latch at 0: port 0x0A reads 255, the odd port 0xC1 reads register 0 and the
even port 0xC0 reads the status. -/
theorem MSXAudio.readIO_peekIO_decode_witness :
    ( MSXAudio.readIO sampleY8950 sampleAudio 0x0A 5).2 = 255 ∧
    MSXAudio.peekIO sampleY8950 sampleAudio 0x0A 5 = 255 ∧
    ( MSXAudio.readIO sampleY8950
        ( MSXAudio.writeIO sampleY8950 sampleAudio 0xC1 7 1) 0xC1 5).2 = 7 ∧
    MSXAudio.peekIO sampleY8950 ( MSXAudio.writeIO sampleY8950 sampleAudio 0xC1 7 1) 0xC0 5 = 7 :=
  ⟨((MSXAudio.readIO_peekIO_decode sampleY8950 sampleAudio 0x0A 5).1 (by decide)).1,
   by decide, by decide, by decide⟩


/-! ## V9990 registers and palette -/

theorem regAccess_RD_WR (reg : Nat) (h : regAccess.getD reg .NO_ACCESS = .RD_WR) :
    reg < 32 ∧ (6 ≤ reg) := by
  by_cases h64 : reg < 64
  · revert h
    revert reg
    decide
  · have : regAccess.getD reg .NO_ACCESS = .NO_ACCESS := by
      apply List.getD_eq_default
      simp [regAccess]; omega
    rw [this] at h
    exact absurd h (by decide)

/-- C12: for every register number below 64, `readRegister` returns 0xFF when
`regAccess` says NO_ACCESS or WR_ONLY and `regs[reg]` when it says RD_WR (the
device is not touched in either case), and `writeRegister` leaves the whole
device state unchanged, call log and pending SyncPoints included, when it
says NO_ACCESS or RD_ONLY. -/
theorem readRegister_writeRegister_access (C : Collaborators) (T : V9990DisplayTiming)
    (s : V9990) (reg : Nat) (val : byte) (time : EmuTime) (hreg : reg < 64) :
    ((regAccess.getD reg .NO_ACCESS = .NO_ACCESS ∨ regAccess.getD reg .NO_ACCESS = .WR_ONLY) →
      readRegister C s reg time = (s, 0xFF)) ∧
    (regAccess.getD reg .NO_ACCESS = .RD_WR → readRegister C s reg time = (s, s.regs reg)) ∧
    ((regAccess.getD reg .NO_ACCESS = .NO_ACCESS ∨ regAccess.getD reg .NO_ACCESS = .RD_ONLY) →
      writeRegister T s reg val time = s) := by
  refine ⟨?_, ?_, ?_⟩
  · intro h
    have hn : ¬ (regAccess.getD reg .NO_ACCESS ≠ .NO_ACCESS ∧
        regAccess.getD reg .NO_ACCESS ≠ .WR_ONLY) := by
      rintro ⟨h1, h2⟩
      rcases h with h | h
      · exact h1 h
      · exact h2 h
    simp only [readRegister, if_neg hn]
  · intro h
    have hp : regAccess.getD reg .NO_ACCESS ≠ .NO_ACCESS ∧
        regAccess.getD reg .NO_ACCESS ≠ .WR_ONLY := by
      rw [h]; decide
    have hlt : reg < CMD_PARAM_BORDER_X_0 := by
      have := (regAccess_RD_WR reg h).1
      show reg < 53
      omega
    simp only [readRegister, if_pos hp, if_pos hlt]
  · intro h
    simp only [writeRegister, if_pos h]


theorem scheduleHscan_regs_palette (T : V9990DisplayTiming) (s : V9990) (time : EmuTime) :
    (scheduleHscan T s time).regs = s.regs ∧ (scheduleHscan T s time).palette = s.palette := by
  simp only [scheduleHscan]
  split <;> split <;> exact ⟨rfl, rfl⟩

/-- A write to a writable register below 32 stores the masked value and
leaves the other registers and the palette alone. -/
theorem writeRegister_regs_palette (T : V9990DisplayTiming) (s : V9990) (reg : Nat) (val : byte)
    (time : EmuTime)
    (hacc : ¬ (regAccess.getD reg .NO_ACCESS = .NO_ACCESS ∨
      regAccess.getD reg .NO_ACCESS = .RD_ONLY))
    (hreg : ¬ reg ≥ CMD_PARAM_SRC_ADDRESS_0) :
    (writeRegister T s reg val time).regs =
      (fun r => if r = reg then val &&& regWriteMask.getD reg 0 else s.regs r) ∧
    (writeRegister T s reg val time).palette = s.palette := by
  unfold writeRegister
  rw [if_neg hacc, if_neg hreg]
  lift_lets
  intro v change s1 s2
  have h1 : s1.regs = s.regs ∧ s1.palette = s.palette := by
    simp only [s1]
    split_ifs <;> exact ⟨rfl, rfl⟩
  have h2 : s2.regs = (fun r => if r = reg then v else s.regs r) ∧ s2.palette = s.palette := by
    simp only [s2, setReg, h1]
    exact ⟨trivial, trivial⟩
  split_ifs
  · exact h2
  · exact h2
  · rw [(scheduleHscan_regs_palette T s2 time).1, (scheduleHscan_regs_palette T s2 time).2]
    exact h2
  · exact h2

/-- C12 at work on a freshly constructed V9990: register 29 is not accessible
and reads 0xFF, a write to it changes nothing, and the read/write register 6
reads its stored value. -/
theorem readRegister_writeRegister_access_witness :
    readRegister sampleCollaborators (create sampleTiming Scheduler.initial 0) 29 5 =
      (create sampleTiming Scheduler.initial 0, 0xFF) ∧
    writeRegister sampleTiming (create sampleTiming Scheduler.initial 0) 29 0x55 5 =
      create sampleTiming Scheduler.initial 0 ∧
    readRegister sampleCollaborators (create sampleTiming Scheduler.initial 0) 6 5 =
      (create sampleTiming Scheduler.initial 0,
        (create sampleTiming Scheduler.initial 0).regs 6) :=
  ⟨(readRegister_writeRegister_access sampleCollaborators sampleTiming
      (create sampleTiming Scheduler.initial 0) 29 0x55 5 (by decide)).1 (Or.inl (by decide)),
   (readRegister_writeRegister_access sampleCollaborators sampleTiming
      (create sampleTiming Scheduler.initial 0) 29 0x55 5 (by decide)).2.2 (Or.inl (by decide)),
   (readRegister_writeRegister_access sampleCollaborators sampleTiming
      (create sampleTiming Scheduler.initial 0) 6 0x55 5 (by decide)).2.1 (by decide)⟩

theorem paletteFormat_of_bytesOk (p : Nat → byte) (h : paletteBytesOk p) : paletteFormat p := by
  intro i _
  have h0 := (h (4 * i)).1 (by omega)
  refine ⟨h0, ?_, (h (4 * i + 1)).2.1 (by omega), (h (4 * i + 2)).2.2.1 (by omega),
    (h (4 * i + 3)).2.2.2 (by omega)⟩
  rw [← h0, Nat.and_assoc]
  exact Nat.and_zero _

theorem writePaletteRegister_palette (s : V9990) (reg val : byte) (time : EmuTime) :
    (writePaletteRegister s reg val time).palette =
      fun r => if r = reg then
        (match reg &&& 3 with
          | 0 => val &&& 0x9F
          | 1 => val &&& 0x1F
          | 2 => val &&& 0x1F
          | _ => 0x00)
        else s.palette r := by
  simp only [writePaletteRegister]
  split <;> rfl

theorem writePaletteRegister_bytesOk (s : V9990) (reg val : byte) (time : EmuTime)
    (h : paletteBytesOk s.palette) :
    paletteBytesOk (writePaletteRegister s reg val time).palette := by
  rw [writePaletteRegister_palette]
  intro r
  by_cases hr : r = reg
  · subst hr
    simp only [if_true]
    have hmod : r &&& 3 = r % 4 := Nat.and_pow_two_sub_one_eq_mod r 2
    rw [hmod]
    have h4 : r % 4 < 4 := Nat.mod_lt _ (by decide)
    refine ⟨?_, ?_, ?_, ?_⟩ <;> intro hk <;> rw [hk]
    · show val &&& 0x9F &&& 0x9F = val &&& 0x9F
      rw [Nat.and_assoc, Nat.and_self]
    · exact Nat.and_le_right
    · exact Nat.and_le_right
  · simp only [if_neg hr]
    exact h r

theorem writeRegister_palette (T : V9990DisplayTiming) (s : V9990) (reg : Nat) (val : byte)
    (time : EmuTime) : (writeRegister T s reg val time).palette = s.palette := by
  by_cases hacc : regAccess.getD reg .NO_ACCESS = .NO_ACCESS ∨
      regAccess.getD reg .NO_ACCESS = .RD_ONLY
  · simp only [writeRegister, if_pos hacc]
  · by_cases hreg : reg ≥ CMD_PARAM_SRC_ADDRESS_0
    · simp only [writeRegister, if_neg hacc, if_pos hreg, call]
    · exact (writeRegister_regs_palette T s reg val time hacc hreg).2

theorem writeIO_palette (T : V9990DisplayTiming) (s : V9990) (port : Nat) (val : byte)
    (time : EmuTime) (h : paletteBytesOk s.palette) :
    paletteBytesOk ( writeIO T s port val time).palette := by
  simp only [ writeIO]
  split_ifs <;>
    first
    | exact h
    | exact writePaletteRegister_bytesOk s _ val time h
    | (rw [writeRegister_palette]; exact h)
    | (rw [(scheduleHscan_regs_palette T _ time).2]; exact h)


theorem calcDisplayMode_palette (s : V9990) : (calcDisplayMode s).palette = s.palette := by
  simp only [calcDisplayMode, setHorizontalTiming]
  split <;> rfl

theorem setVerticalTiming_palette (s : V9990) : (setVerticalTiming s).palette = s.palette := by
  simp only [setVerticalTiming]
  split <;> rfl

theorem frameStart_palette (T : V9990DisplayTiming) (s : V9990) (time : EmuTime) :
    (frameStart T s time).palette = s.palette := by
  simp only [frameStart, setSyncPoint, call, setVerticalTiming_palette]

theorem reset_palette (T : V9990DisplayTiming) (s : V9990) (time : EmuTime) :
    (reset T s time).palette = s.palette := by
  simp only [reset, frameStart_palette, call, writeIO_INTERRUPT_FLAG]
  rw [(scheduleHscan_regs_palette T _ time).2]
  split <;> simp only [calcDisplayMode_palette, removeSyncPoint]

/-- The palette the constructor leaves has the format R, G, B, 0. -/
theorem create_palette (T : V9990DisplayTiming) (scheduler : Scheduler) (time : EmuTime) :
    paletteBytesOk (V9990.create T scheduler time).palette := by
  simp only [V9990.create, reset_palette, call, setVerticalTiming_palette,
    calcDisplayMode_palette]
  intro r
  have h4 : r % 4 < 4 := Nat.mod_lt _ (by decide)
  by_cases hr : r < 256
  · simp only [if_pos hr]
    refine ⟨?_, ?_, ?_, ?_⟩ <;> (intro hk; simp [hk])
  · simp only [if_neg hr]
    refine ⟨?_, ?_, ?_, ?_⟩ <;> (intro _; decide)

theorem applyWrite_palette (T : V9990DisplayTiming) (s : V9990) (w : Write)
    (h : paletteBytesOk s.palette) : paletteBytesOk (applyWrite T s w).palette := by
  cases w with
  | io port val time => exact writeIO_palette T s port val time h
  | regDebug address value time =>
    show paletteBytesOk (writeRegister T s (address % 256) value time).palette
    rw [writeRegister_palette]
    exact h
  | palDebug address value time =>
    exact writePaletteRegister_bytesOk s (address % 256) value time h

theorem applyWrites_palette (T : V9990DisplayTiming) (writes : List Write) (s : V9990)
    (h : paletteBytesOk s.palette) :
    paletteBytesOk (writes.foldl (applyWrite T) s).palette := by
  induction writes generalizing s with
  | nil => exact h
  | cons w rest ih => exact ih (applyWrite T s w) (applyWrite_palette T s w h)

/-- C14: after construction and after any sequence of writes that follow it
(port writes, among them those to PALETTE_DATA, and writes through the
palette and the register debuggable) the palette has the format R, G, B, 0:
for every entry `i < 64`, `palette[4i]` has no bit outside 0x9F
(`palette[4i] & ~0x9F == 0`, the byte `~0x9F` being 0x60),
`palette[4i+1] <= 0x1F`, `palette[4i+2] <= 0x1F` and `palette[4i+3] == 0`. -/
theorem palette_format_invariant (T : V9990DisplayTiming) (scheduler : Scheduler)
    (time : EmuTime) (writes : List Write) :
    paletteFormat (writes.foldl (applyWrite T) (V9990.create T scheduler time)).palette :=
  paletteFormat_of_bytesOk _
    (applyWrites_palette T writes (V9990.create T scheduler time)
      (create_palette T scheduler time))

/-- C14 at work: a freshly constructed V9990 with the palette pointer at 0
takes the port writes 0xFF, 0xFF, 0xFF to PALETTE_DATA as red 0x9F, green
0x1F, blue 0x1F, and a debugger write of 0xFF at index 3 stores 0. -/
theorem palette_format_invariant_witness :
    paletteFormat
      ([Write.io 1 0xFF 5, Write.io 1 0xFF 6, Write.io 1 0xFF 7, Write.palDebug 3 0xFF 8].foldl
        (applyWrite sampleTiming) (V9990.create sampleTiming Scheduler.initial 0)).palette ∧
    (List.range 4).map
      ([Write.io 1 0xFF 5, Write.io 1 0xFF 6, Write.io 1 0xFF 7, Write.palDebug 3 0xFF 8].foldl
        (applyWrite sampleTiming) (V9990.create sampleTiming Scheduler.initial 0)).palette =
      [0x9F, 0x1F, 0x1F, 0] :=
  ⟨palette_format_invariant sampleTiming Scheduler.initial 0 _, by decide⟩



theorem hscan_every_line_offset (ticks L frame x : Nat) (xi : Int) (hxi : xi = (x : Int))
    (hx : x ≤ ticks % L) :
    (if (ticks : Int) - Int.tmod (ticks : Int) (L : Int) + xi ≤ (ticks : Int) then
        (ticks : Int) - Int.tmod (ticks : Int) (L : Int) + xi + (frame : Int)
      else (ticks : Int) - Int.tmod (ticks : Int) (L : Int) + xi).toNat =
      ticks - ticks % L + x + frame := by
  have hmod : Int.tmod (ticks : Int) (L : Int) = ((ticks % L : Nat) : Int) := rfl
  have hle := Nat.mod_le ticks L
  rw [hmod, hxi]
  generalize ticks % L = m at hx hle ⊢
  split <;> omega

/-- In "every line" mode, once the interrupt position of the current line has
been passed (`x <= ticks % L`), `scheduleHscan` adds a whole frame to the
offset: the interrupt is scheduled at the position `x` of the current line
number in the next frame. -/
theorem scheduleHscan_every_line_passed (T : V9990DisplayTiming) (s : V9990) (time : EmuTime)
    (hevery : s.regs INTERRUPT_2 &&& 0x80 ≠ 0) (hIRQ : s.pendingIRQs &&& HOR_IRQ = 0)
    (hx : (s.regs INTERRUPT_3 &&& 0x0F) * 64 * (if s.status &&& 0x04 ≠ 0 then 3 else 2) ≤
      s.frameStartTime.getTicksTill T.masterTicks time % T.UC_TICKS_PER_LINE) :
    (scheduleHscan T s time).hScanSyncTime =
      s.frameStartTime.plus T.masterTicks
        (s.frameStartTime.getTicksTill T.masterTicks time -
          s.frameStartTime.getTicksTill T.masterTicks time % T.UC_TICKS_PER_LINE +
          (s.regs INTERRUPT_3 &&& 0x0F) * 64 * (if s.status &&& 0x04 ≠ 0 then 3 else 2) +
          T.getUCTicksPerFrame s.palTiming) := by
  obtain ⟨s1, hs1, e1, e2, e3, e4, e5⟩ : ∃ s1 : V9990,
      s1 = (if s.hScanSyncTime > time then
        { removeSyncPoint s .V9990_HSCAN with hScanSyncTime := time } else s) ∧
      s1.pendingIRQs = s.pendingIRQs ∧ s1.frameStartTime = s.frameStartTime ∧
      s1.palTiming = s.palTiming ∧ s1.regs = s.regs ∧ s1.status = s.status := by
    refine ⟨_, rfl, ?_, ?_, ?_, ?_, ?_⟩ <;> split <;> rfl
  have hno : ¬ (s1.pendingIRQs &&& HOR_IRQ ≠ 0) := by rw [e1]; simpa using hIRQ
  have hev : s1.regs INTERRUPT_2 &&& 0x80 ≠ 0 := by rw [e4]; exact hevery
  simp only [scheduleHscan, ← hs1, if_neg hno, if_pos hev, setSyncPoint]
  rw [e2, e3, e4, e5]
  congr 1
  by_cases hm : s.status &&& 0x04 ≠ 0
  · simp only [if_pos hm] at hx ⊢
    exact hscan_every_line_offset _ _ _ ((s.regs INTERRUPT_3 &&& 0x0F) * 64 * 3) _
      (by push_cast; ring) hx
  · simp only [if_neg hm] at hx ⊢
    exact hscan_every_line_offset _ _ _ ((s.regs INTERRUPT_3 &&& 0x0F) * 64 * 2) _
      (by push_cast; ring) hx

/-- C17 fails on the code.  A V9990 constructed at time 0 gets 0x80 written to
INTERRUPT_2 (register 11) at time 10: "every line" mode with horizontal
offset x = 0 and no interrupt pending.  `scheduleHscan`, at that write and
again when called at time 20 (tick 5 of line 0), schedules V9990_HSCAN at the
frame start plus one whole frame (358416 ticks of 4 master ticks), not within
`time + UC_TICKS_PER_LINE + x`. -/
theorem scheduleHscan_every_line_next_frame :
    (( writeIO sampleTiming ( writeIO sampleTiming (V9990.create sampleTiming Scheduler.initial 0)
        REGISTER_SELECT 11 5) REGISTER_DATA 0x80 10).regs INTERRUPT_2 &&& 0x80 ≠ 0) ∧
    (( writeIO sampleTiming ( writeIO sampleTiming (V9990.create sampleTiming Scheduler.initial 0)
        REGISTER_SELECT 11 5) REGISTER_DATA 0x80 10).regs INTERRUPT_3 &&& 0x0F = 0) ∧
    (( writeIO sampleTiming ( writeIO sampleTiming (V9990.create sampleTiming Scheduler.initial 0)
        REGISTER_SELECT 11 5) REGISTER_DATA 0x80 10).pendingIRQs &&& HOR_IRQ = 0) ∧
    ( writeIO sampleTiming ( writeIO sampleTiming (V9990.create sampleTiming Scheduler.initial 0)
        REGISTER_SELECT 11 5) REGISTER_DATA 0x80 10).hScanSyncTime = 358416 * 4 ∧
    (scheduleHscan sampleTiming
      ( writeIO sampleTiming ( writeIO sampleTiming
        (V9990.create sampleTiming Scheduler.initial 0) REGISTER_SELECT 11 5)
        REGISTER_DATA 0x80 10) 20).hScanSyncTime = 358416 * 4 ∧
    ¬ (358416 * 4 ≤ 20 + (sampleTiming.UC_TICKS_PER_LINE + 0) * sampleTiming.masterTicks) := by
  decide


/-! ## Software info topic and database lookup -/

theorem wrong_number_ne_not_found (x : String) :
    "Wrong number of parameters" ≠ "Software with sha1sum " ++ x ++ " not found" := by
  intro h
  have h2 := congrArg String.data h
  simp [String.data_append] at h2

/-- C15: `info software <sha1>`.  `execute` throws "Wrong number of
parameters" if and only if `tokens.size() != 3`; with three tokens it throws
"Software with sha1sum ... not found" if and only if `fetchRomInfo(tokens[2])`
is NULL; otherwise it appends exactly 16 elements to the result, the keys
title, year, company, country, orig_type, remark, original, mapper_type_name
at the even positions in that order, each followed by the value from the
RomInfo. -/
theorem SoftwareInfoTopic.execute_paired_list (romTypeToName : RomType → String)
    (st : RomDatabaseStatics) (tokens : List String) (result : List TclValue) :
    (SoftwareInfoTopic.execute romTypeToName st tokens result =
        .error "Wrong number of parameters" ↔ tokens.length ≠ 3) ∧
    (tokens.length = 3 →
      (SoftwareInfoTopic.execute romTypeToName st tokens result =
          .error ("Software with sha1sum " ++ tokens.getD 2 "" ++ " not found") ↔
        RomDatabase.fetchRomInfo st (tokens.getD 2 "") = none)) ∧
    ((∃ message, SoftwareInfoTopic.execute romTypeToName st tokens result = .error message) ↔
      (tokens.length ≠ 3 ∨ RomDatabase.fetchRomInfo st (tokens.getD 2 "") = none)) ∧
    (tokens.length = 3 → ∀ romInfo : RomInfo,
      RomDatabase.fetchRomInfo st (tokens.getD 2 "") = some romInfo →
      ∃ added : List TclValue,
        SoftwareInfoTopic.execute romTypeToName st tokens result = .ok (result ++ added) ∧
        added.length = 16 ∧
        added =
          [ .string "title", .string romInfo.title,
            .string "year", .string romInfo.year,
            .string "company", .string romInfo.company,
            .string "country", .string romInfo.country,
            .string "orig_type", .string romInfo.origType,
            .string "remark", .string romInfo.remark,
            .string "original", .int (if romInfo.original then 1 else 0),
            .string "mapper_type_name", .string (romTypeToName romInfo.romType) ]) := by
  by_cases hlen : tokens.length ≠ 3
  · have he : SoftwareInfoTopic.execute romTypeToName st tokens result =
        .error "Wrong number of parameters" := by
      simp only [SoftwareInfoTopic.execute, if_pos hlen]
    refine ⟨⟨fun _ => hlen, fun _ => he⟩, fun h => absurd h hlen,
      ⟨fun _ => Or.inl hlen, fun _ => ⟨_, he⟩⟩, fun h => absurd h hlen⟩
  · have hlen3 : tokens.length = 3 := not_not.mp hlen
    cases hf : RomDatabase.fetchRomInfo st (tokens.getD 2 "") with
    | none =>
      have he : SoftwareInfoTopic.execute romTypeToName st tokens result =
          .error ("Software with sha1sum " ++ tokens.getD 2 "" ++ " not found") := by
        simp only [SoftwareInfoTopic.execute, if_neg hlen, hf]
      refine ⟨⟨fun h => ?_, fun h => absurd h hlen⟩, fun _ => ⟨fun _ => rfl, fun _ => he⟩,
        ⟨fun _ => Or.inr rfl, fun _ => ⟨_, he⟩⟩, fun _ romInfo h => ?_⟩
      · rw [he] at h
        exact absurd (Except.error.inj h).symm (wrong_number_ne_not_found _)
      · exact absurd h (by simp)
    | some info =>
      have he : SoftwareInfoTopic.execute romTypeToName st tokens result =
          .ok (result ++
            [ .string "title", .string info.title,
              .string "year", .string info.year,
              .string "company", .string info.company,
              .string "country", .string info.country,
              .string "orig_type", .string info.origType,
              .string "remark", .string info.remark,
              .string "original", .int (if info.original then 1 else 0),
              .string "mapper_type_name", .string (romTypeToName info.romType) ]) := by
        simp only [SoftwareInfoTopic.execute, if_neg hlen, hf]
      refine ⟨⟨fun h => ?_, fun h => absurd h hlen⟩, fun _ => ⟨fun h => ?_, fun h => ?_⟩,
        ⟨fun h => ?_, fun h => ?_⟩, fun _ romInfo h => ?_⟩
      · rw [he] at h; exact absurd h (by simp)
      · rw [he] at h; exact absurd h (by simp)
      · exact absurd h (by simp)
      · obtain ⟨m, hm⟩ := h
        rw [he] at hm; exact absurd hm (by simp)
      · rcases h with h | h
        · exact absurd hlen3 h
        · exact absurd h (by simp)
      · have e : info = romInfo := Option.some.inj h
        subst e
        exact ⟨_, he, rfl, rfl⟩

/-- C15 at work on the database loaded from the sample files: two tokens are
refused, an unknown SHA1 is not found, and "ABC1" (stored as "abc1") yields the
paired list of Game A. -/
theorem SoftwareInfoTopic.execute_paired_list_witness :
    SoftwareInfoTopic.execute sampleRomTypeToName
        (RomDatabase.initDatabase sampleNameToRomType sampleFiles RomDatabase.initialStatics)
        ["info", "software"] [] = .error "Wrong number of parameters" ∧
    SoftwareInfoTopic.execute sampleRomTypeToName
        (RomDatabase.initDatabase sampleNameToRomType sampleFiles RomDatabase.initialStatics)
        ["info", "software", "0000"] [] = .error "Software with sha1sum 0000 not found" ∧
    SoftwareInfoTopic.execute sampleRomTypeToName
        (RomDatabase.initDatabase sampleNameToRomType sampleFiles RomDatabase.initialStatics)
        ["info", "software", "ABC1"] [] =
      .ok [ .string "title", .string "Game A", .string "year", .string "1985",
            .string "company", .string "X", .string "country", .string "JP",
            .string "orig_type", .string "ROM", .string "remark", .string "",
            .string "original", .int 1, .string "mapper_type_name", .string "Konami" ] :=
  ⟨(SoftwareInfoTopic.execute_paired_list sampleRomTypeToName
      (RomDatabase.initDatabase sampleNameToRomType sampleFiles RomDatabase.initialStatics)
      ["info", "software"] []).1.mpr (by decide),
   by rfl, by rfl⟩


theorem caselessEq_iff (a b : String) :
    caselessEq a b = true ↔ a.data.map lowerCode = b.data.map lowerCode := by
  simp [caselessEq]

theorem caselessEq_trans (a b c : String) (h1 : caselessEq a b = true)
    (h2 : caselessEq b c = true) : caselessEq a c = true := by
  rw [caselessEq_iff] at *
  exact h1.trans h2

/-- Adding an entry under a key that is new, or leaving the map alone when the
key is there already, puts the entry behind the older ones in every lookup. -/
theorem DBMap.find_insert_new (m : DBMap) (e : String × RomInfo) (s : String) :
    DBMap.find (if (DBMap.find m e.1).isNone then m ++ [e] else m) s =
      (DBMap.find m s).or (if caselessEq e.1 s then some e else none) := by
  by_cases hs : caselessEq e.1 s = true
  · rw [if_pos hs]
    split
    · rename_i hnone
      simp only [DBMap.find, List.find?_append, List.find?_cons, hs, List.find?_nil]
    · rename_i hsome
      have hsome2 : (DBMap.find m e.1).isSome = true := by
        cases h : DBMap.find m e.1 with
        | none => rw [h] at hsome; exact absurd rfl hsome
        | some x => rfl
      obtain ⟨x, hx, hpx⟩ := List.find?_isSome.mp hsome2
      have hxs : caselessEq x.1 s = true := caselessEq_trans _ _ _ hpx hs
      have : (DBMap.find m s).isSome = true := List.find?_isSome.mpr ⟨x, hx, hxs⟩
      cases h : DBMap.find m s with
      | none => rw [h] at this; exact absurd this (by simp)
      | some y => rfl
  · have hs2 : caselessEq e.1 s = false := by simpa using hs
    rw [hs2]
    simp only [Bool.false_eq_true, if_false, Option.or_none]
    split
    · simp only [DBMap.find, List.find?_append, List.find?_cons, hs2, List.find?_nil,
        Option.or_none]
    · rfl

theorem DBMap.find_foldl_insert_new (l : List (String × RomInfo)) (m : DBMap) (s : String) :
    DBMap.find (l.foldl (fun db e => if (DBMap.find db e.1).isNone then db ++ [e] else db) m) s =
      (DBMap.find m s).or (l.find? (fun e => caselessEq e.1 s)) := by
  induction l generalizing m with
  | nil => simp
  | cons e rest ih =>
    rw [List.foldl_cons, ih, DBMap.find_insert_new, Option.or_assoc]
    congr 1
    rw [List.find?_cons]
    cases caselessEq e.1 s <;> simp


theorem RomDatabase.parseEntry_map (nameToRomType : String → RomType) (rom : ParsedRom)
    (st : List String × UnknownTypes × DBMap) :
    (parseEntry nameToRomType rom st).2.2 =
      (fileEntries nameToRomType [rom]).foldl
        (fun db e => if (DBMap.find db e.1).isNone then db ++ [e] else db) st.2.2 := by
  simp only [parseEntry, fileEntries, List.flatMap_cons, List.flatMap_nil, List.append_nil]
  generalize rom.hashTags = tags
  induction tags generalizing st with
  | nil => rfl
  | cons tag rest ih =>
    rw [List.foldl_cons, ih]
    by_cases h : tag.1 = "sha1"
    · have hb : (tag.1 == "sha1") = true := by simpa using h
      have hn : ¬ tag.1 ≠ "sha1" := not_not.mpr h
      rw [if_neg hn, List.filter_cons, if_pos hb, List.map_cons, List.foldl_cons]
      by_cases hnone : (DBMap.find st.2.2 tag.2).isNone = true
      · simp only [addEntry, hnone, if_true]
      · simp only [addEntry, hnone, Bool.false_eq_true, if_false]
    · have hb : ¬ (tag.1 == "sha1") = true := by simpa using h
      have hn : tag.1 ≠ "sha1" := h
      rw [if_pos hn, List.filter_cons, if_neg hb]

theorem RomDatabase.parseDB_map (nameToRomType : String → RomType) (roms : List ParsedRom)
    (st : List String × UnknownTypes × DBMap) :
    (parseDB nameToRomType roms st).2.2 =
      (fileEntries nameToRomType roms).foldl
        (fun db e => if (DBMap.find db e.1).isNone then db ++ [e] else db) st.2.2 := by
  induction roms generalizing st with
  | nil => rfl
  | cons rom rest ih =>
    have hsplit : fileEntries nameToRomType (rom :: rest) =
        fileEntries nameToRomType [rom] ++ fileEntries nameToRomType rest := by
      simp [fileEntries]
    rw [hsplit, List.foldl_append, ← RomDatabase.parseEntry_map]
    exact ih (parseEntry nameToRomType rom st)

/-- Loading one more file puts its entries behind those already stored. -/
theorem RomDatabase.loadFile_find (nameToRomType : String → RomType) (st : RomDatabaseStatics)
    (file : DBFile) (s : String) :
    DBMap.find (loadFile nameToRomType st file).romDBSHA1 s =
      (DBMap.find st.romDBSHA1 s).or
        ((allEntries nameToRomType [file]).find? (fun e => caselessEq e.1 s)) := by
  cases file with
  | unreadable => simp [loadFile, allEntries]
  | malformed message => simp [loadFile, allEntries]
  | document roms =>
    simp only [loadFile, allEntries, List.flatMap_cons, List.flatMap_nil, List.append_nil]
    rw [DBMap.find_foldl_insert_new, RomDatabase.parseDB_map]
    congr 1
    have := DBMap.find_foldl_insert_new (fileEntries nameToRomType roms) [] s
    simp only [DBMap.find, List.find?_nil, Option.none_or] at this
    exact this

theorem RomDatabase.loadFiles_find (nameToRomType : String → RomType) (files : List DBFile)
    (st : RomDatabaseStatics) (s : String) :
    DBMap.find (files.foldl (loadFile nameToRomType) st).romDBSHA1 s =
      (DBMap.find st.romDBSHA1 s).or
        ((allEntries nameToRomType files).find? (fun e => caselessEq e.1 s)) := by
  induction files generalizing st with
  | nil => simp [allEntries]
  | cons f rest ih =>
    have hsplit : allEntries nameToRomType (f :: rest) =
        allEntries nameToRomType [f] ++ allEntries nameToRomType rest := by
      simp [allEntries]
    rw [List.foldl_cons, ih, RomDatabase.loadFile_find, hsplit, List.find?_append,
      Option.or_assoc]


theorem RomDatabase.initDatabase_map (nameToRomType : String → RomType) (files : List DBFile) :
    (initDatabase nameToRomType files initialStatics).romDBSHA1 =
      (files.foldl (loadFile nameToRomType) { initialStatics with init := true }).romDBSHA1 := by
  simp only [initDatabase, initialStatics, Bool.false_eq_true, if_false]
  split <;> split <;> rfl

theorem RomDatabase.fetchRomInfo_eq (st : RomDatabaseStatics) (s : String) :
    fetchRomInfo st s = (DBMap.find st.romDBSHA1 s).map (fun e => e.2) := by
  unfold fetchRomInfo
  cases DBMap.find st.romDBSHA1 s <;> rfl

/-- C16: the database keeps the first entry per SHA1, compared ignoring letter
case.  `addEntry` discards, with the warning "duplicate softwaredb entry", an
entry whose SHA1 equals a stored one ignoring case, and appends it otherwise,
so that a lookup in the map of one file finds the first entry of the document
for that SHA1; `loadFile` leaves an entry of an earlier path in place; and
after `initDatabase`, `fetchRomInfo(s)` returns the first entry, in the order
of the paths and of the documents, whose SHA1 equals `s` ignoring case, that
is non-NULL exactly when some stored SHA1 equals `s` ignoring case. -/
theorem RomDatabase.fetchRomInfo_first_entry (nameToRomType : String → RomType)
    (files : List DBFile) (s : String) (warnings : List String) (romInfo : RomInfo)
    (sha1 : String) (result : DBMap) (roms : List ParsedRom) (st : RomDatabaseStatics)
    (file : DBFile) :
    ((∃ e ∈ result, caselessEq e.1 sha1 = true) →
      addEntry warnings romInfo sha1 result =
        (warnings ++ ["duplicate softwaredb entry SHA1: " ++ sha1], result)) ∧
    ((∀ e ∈ result, ¬ caselessEq e.1 sha1 = true) →
      addEntry warnings romInfo sha1 result = (warnings, result ++ [(sha1, romInfo)])) ∧
    DBMap.find (parseDB nameToRomType roms (warnings, [], [])).2.2 s =
      (fileEntries nameToRomType roms).find? (fun e => caselessEq e.1 s) ∧
    (∀ e, DBMap.find st.romDBSHA1 s = some e →
      DBMap.find (loadFile nameToRomType st file).romDBSHA1 s = some e) ∧
    fetchRomInfo (initDatabase nameToRomType files initialStatics) s =
      firstEntry nameToRomType files s ∧
    ((fetchRomInfo (initDatabase nameToRomType files initialStatics) s).isSome = true ↔
      ∃ e ∈ (initDatabase nameToRomType files initialStatics).romDBSHA1,
        caselessEq e.1 s = true) := by
  refine ⟨?_, ?_, ?_, ?_, ?_, ?_⟩
  · intro h
    have hs : (DBMap.find result sha1).isSome = true := List.find?_isSome.mpr h
    have hn : ¬ (DBMap.find result sha1).isNone = true := by
      cases hf : DBMap.find result sha1 with
      | none => rw [hf] at hs; exact absurd hs (by simp)
      | some x => simp
    simp only [addEntry, if_neg hn]
  · intro h
    have hnone : DBMap.find result sha1 = none := List.find?_eq_none.mpr h
    simp only [addEntry, hnone, Option.isNone_none, if_true]
  · rw [RomDatabase.parseDB_map]
    have := DBMap.find_foldl_insert_new (fileEntries nameToRomType roms) [] s
    simp only [DBMap.find, List.find?_nil, Option.none_or] at this
    exact this
  · intro e he
    rw [RomDatabase.loadFile_find, he, Option.or_some]
  · rw [RomDatabase.fetchRomInfo_eq, RomDatabase.initDatabase_map, RomDatabase.loadFiles_find]
    simp only [initialStatics, DBMap.find, List.find?_nil, Option.none_or, firstEntry]
  · rw [RomDatabase.fetchRomInfo_eq, Option.isSome_map']
    exact List.find?_isSome

/-- C16 at work: the sample files store "abc1" in the first file and "ABC1" in
the third; after loading, "Abc1" finds Game A of the first file, and an
unknown SHA1 finds nothing. -/
theorem RomDatabase.fetchRomInfo_first_entry_witness :
    (fetchRomInfo (initDatabase sampleNameToRomType sampleFiles initialStatics) "Abc1").map
      (fun romInfo => romInfo.title) = some "Game A" ∧
    fetchRomInfo (initDatabase sampleNameToRomType sampleFiles initialStatics) "0000" = none ∧
    fetchRomInfo (initDatabase sampleNameToRomType sampleFiles initialStatics) "Abc1" =
      firstEntry sampleNameToRomType sampleFiles "Abc1" :=
  ⟨by decide, by decide,
   (RomDatabase.fetchRomInfo_first_entry sampleNameToRomType sampleFiles "Abc1" []
      ⟨"", "", "", "", false, "", "", .ROM_UNKNOWN⟩ "" [] [] initialStatics .unreadable).2.2.2.2.1⟩


end openmsx
